import Mathlib

/-!
Verification development for the `rhome_eod_webapp` repository.

The Python sources (`app/ingest.py`, `app/main.py`, `app/simpro.py`,
`app/metrics.py`) are shallowly embedded below: JSON values become the
inductive `JVal`, Python floats become exact rationals `ℚ`, Python `None`
becomes `Option`/`JVal.null`, raised exceptions become `Except`/`Option`
error values, the SQLite tables become explicit record states, HTTP traffic
becomes an oracle function passed as a parameter, and the wall-clock
time checks (`time.time() < t_end`) become an arbitrary boolean predicate
on a loop-iteration counter.
-/

set_option linter.unusedVariables false

namespace RhomeEod

/-- JSON values, as produced by `response.json()` in the Python sources.
Objects are association lists (Python dicts with distinct keys). -/
inductive JVal where
  | null
  | bool (b : Bool)
  | num (q : ℚ)
  | str (s : String)
  | arr (xs : List JVal)
  | obj (fields : List (String × JVal))

/-- Is this JSON value Python `None`? (`x is None`). -/
def JVal.isNull : JVal → Bool
  | .null => true
  | _ => false

/-- A JSON object body (Python `dict`). -/
abbrev JObj := List (String × JVal)

/-- First-match association-list lookup (Python `k in j` / `j[k]` on a dict
with distinct keys). -/
def lookupA : JObj → String → Option JVal
  | [], _ => none
  | (k, v) :: rest, key => if k = key then some v else lookupA rest key

/-- Python truthiness of a JSON value (`if x:`). -/
def pyTruthy : JVal → Bool
  | .null => false
  | .bool b => b
  | .num q => q ≠ 0
  | .str s => s ≠ ""
  | .arr xs => !xs.isEmpty
  | .obj fields => !fields.isEmpty

/-- Python `str(x)` for JSON values.  String rendering of non-string scalars
and containers is abstracted (no claim depends on the rendered text of a
non-string value, only on whether the result is some string). -/
def pyStr : JVal → String
  | .null => "None"
  | .bool b => if b then "True" else "False"
  | .num q => toString q
  | .str s => s
  | .arr _ => "[list]"
  | .obj _ => "[dict]"

/-- Python string containment `needle in hay`, prefix part. -/
def listPrefixOf : List Char → List Char → Bool
  | [], _ => true
  | _ :: _, [] => false
  | a :: as, b :: bs => a = b && listPrefixOf as bs

/-- Python string containment `needle in hay` on char lists. -/
def listInfixOf (needle : List Char) : List Char → Bool
  | [] => needle.isEmpty
  | b :: bs => listPrefixOf needle (b :: bs) || listInfixOf needle bs

/-- Python `needle in hay` for strings (contiguous substring test). -/
def strIn (needle hay : String) : Bool :=
  listInfixOf needle.toList hay.toList

/-- Python `s.lower()` (ASCII case folding, as in the stage/type fields). -/
def pyLower (s : String) : String :=
  String.mk (s.toList.map Char.toLower)

/-- Python `s.strip()`: drop leading and trailing whitespace. -/
def pyStrip (s : String) : String :=
  String.mk (((s.toList.dropWhile Char.isWhitespace).reverse.dropWhile
    Char.isWhitespace).reverse)

/-- Split a char list at every occurrence of `sep` (Python `s.split(sep)`
for a one-character separator). -/
def splitOnCharAux (sep : Char) : List Char → List Char → List (List Char)
  | [], acc => [acc.reverse]
  | c :: cs, acc =>
    if c = sep then acc.reverse :: splitOnCharAux sep cs []
    else splitOnCharAux sep cs (c :: acc)

/-- Python `s.split(".")` (and the `k.split(".")` of the ingest helpers). -/
def splitOnChar (sep : Char) (s : String) : List String :=
  (splitOnCharAux sep s.toList []).map String.mk

/-- `_normalize_text` from `ingest.py`: `""` for `None`, else `str(x).strip()`.
The `Option` argument models a Python variable that may hold `None` coming
from `dict.get`. -/
def normalize_text : Option JVal → String
  | none => ""
  | some .null => ""
  | some v => pyStrip (pyStr v)

/-- Value of a digit list (used by the decimal-string parser). -/
def digitsVal (cs : List Char) : Nat :=
  cs.foldl (fun a c => a * 10 + (c.toNat - 48)) 0

/-- Python `float(s)` on a string: optional sign, decimal digits with an
optional fractional part.  (Exponents and `inf`/`nan` spellings are not
modelled; no claim depends on which exact strings convert.) -/
def parseFloatStr (s : String) : Option ℚ :=
  let cs := (pyStrip s).toList
  let (sign, ds) : ℚ × List Char :=
    match cs with
    | '-' :: rest => (-1, rest)
    | '+' :: rest => (1, rest)
    | _ => (1, cs)
  match splitOnCharAux '.' ds [] with
  | [a] =>
    if a ≠ [] && a.all Char.isDigit then
      some (sign * (digitsVal a : ℚ))
    else none
  | [a, b] =>
    if (a ≠ [] || b ≠ []) && a.all Char.isDigit && b.all Char.isDigit then
      some (sign * ((digitsVal a : ℚ) + (digitsVal b : ℚ) / ((10 : ℚ) ^ b.length)))
    else none
  | _ => none

/-- Python `float(x)` on a JSON value: numbers and bools convert, numeric
strings parse, everything else raises (modelled as `none`). -/
def pyFloat : JVal → Option ℚ
  | .num q => some q
  | .bool b => some (if b then 1 else 0)
  | .str s => parseFloatStr s
  | _ => none

/-- The dotted-path walk shared by `_first_number` and `_first_text`:
start at `j`, and at each path component require the current node to be a
dict containing that component. -/
def lookupPath : JVal → List String → Option JVal
  | j, [] => some j
  | j, p :: ps =>
    match j with
    | .obj fields =>
      match lookupA fields p with
      | some v => lookupPath v ps
      | none => none
    | _ => none

/-- Resolution of one candidate key `k` against the payload `j`: the dotted
branch (`"." in k`) walks `k.split(".")` through nested dicts, the plain
branch looks `k` up directly (both as in `_first_number`/`_first_text`). -/
def keyProbe (j : JObj) (k : String) : Option JVal :=
  if strIn "." k then lookupPath (.obj j) (splitOnChar '.' k)
  else lookupA j k

/-- One iteration of the `_first_number` loop body for key `k`: if the key
resolves, is not `None` and `float()` succeeds, produce the number;
otherwise fall through (`pass`). -/
def tryKeyNumber (j : JObj) (k : String) : Option ℚ :=
  match keyProbe j k with
  | some node => if node.isNull then none else pyFloat node
  | none => none

/-- `_first_number` from `ingest.py`. -/
def first_number (j : JObj) : List String → Option ℚ
  | [] => none
  | k :: ks =>
    match tryKeyNumber j k with
    | some v => some v
    | none => first_number j ks

/-- One iteration of the `_first_text` loop body for key `k`. -/
def tryKeyText (j : JObj) (k : String) : Option String :=
  match keyProbe j k with
  | some node => if node.isNull then none else some (normalize_text (some node))
  | none => none

/-- `_first_text` from `ingest.py`. -/
def first_text (j : JObj) : List String → String
  | [] => ""
  | k :: ks =>
    match tryKeyText j k with
    | some s => s
    | none => first_text j ks

/-- Python `x or y` on optional JSON values (`j.get(a) or j.get(b)`):
keep `x` when it is present and truthy, else fall to `y`. -/
def pyOrJ (x y : Option JVal) : Option JVal :=
  match x with
  | some v => if pyTruthy v then some v else y
  | none => y

/-- Python `s or d` on strings: `d` when `s` is empty. -/
def pyOrS (s d : String) : String :=
  if s = "" then d else s

/-- `_infer_stage` from `ingest.py`: gather candidate stage texts, join,
lowercase, and classify by keyword. -/
def infer_stage (j : JObj) : String :=
  let c0 : String :=
    match lookupA j "stage" with
    | some (.obj o) => normalize_text (lookupA o "name")
    | v => normalize_text v
  let cands : List String :=
    c0 :: (["stageName", "Stage", "jobStage", "jobStageName", "currentStage",
            "status", "statusName"].filterMap fun k =>
      match lookupA j k with
      | some v => some (normalize_text (some v))
      | none => none)
  let text := pyLower (String.intercalate " " cands)
  if strIn "archive" text then "Archived"
  else if strIn "complete" text || strIn "completed" text then "Complete"
  else if strIn "in progress" text || strIn "progress" text then "In Progress"
  else if strIn "pending" text then "Pending"
  else pyOrS (cands.headD "") "Unknown"

/-- The first key of `ks` that is present in `j` with a truthy value
(`if k in j and j[k]:`), used by `_infer_type`. -/
def firstTruthyKey (j : JObj) : List String → Option JVal
  | [] => none
  | k :: ks =>
    match lookupA j k with
    | some v => if pyTruthy v then some v else firstTruthyKey j ks
    | none => firstTruthyKey j ks

/-- `_infer_type` from `ingest.py`. -/
def infer_type (j : JObj) : String :=
  match firstTruthyKey j ["type", "jobType", "jobTypeName", "TypeName"] with
  | some v => normalize_text (some v)
  | none =>
    -- v = j.get("jobType") or j.get("typeObj") or {}
    match pyOrJ (lookupA j "jobType") (lookupA j "typeObj") with
    | some (.obj o) =>
      match lookupA o "name" with
      | some nv => if pyTruthy nv then normalize_text (some nv) else "Unknown"
      | none => "Unknown"
    | _ => "Unknown"

/-- A value stored in the row dict built by `_extract_job_fields`
(and subsequently in a `job` table row). -/
inductive FieldVal where
  | int (n : Int)
  | str (s : String)
  | num (q : ℚ)
  | null
deriving DecidableEq

/-- The dict returned by `_extract_job_fields` (ordered, distinct keys). -/
abbrev FieldDict := List (String × FieldVal)

/-- First-match lookup in a field dict (`r.get(k)` as `Option`). -/
def lookupF : FieldDict → String → Option FieldVal
  | [], _ => none
  | (k, v) :: rest, key => if k = key then some v else lookupF rest key

/-- Python `x or d` on an optional float: `d` when `x` is `None` or `0.0`. -/
def pyOrQ (x : Option ℚ) (d : ℚ) : ℚ :=
  match x with
  | some v => if v = 0 then d else v
  | none => d

/-- Python `int(q)` on a float: truncation toward zero. -/
def ratTrunc (q : ℚ) : Int :=
  q.num.tdiv (q.den : Int)

/-- Candidate keys for estimated revenue in `_extract_job_fields`. -/
def estRevKeys : List String :=
  ["quotedPriceExTax", "contractPriceExTax", "sellPriceExTax", "exTaxTotal",
   "Totals.ExTaxTotal", "totalExTax", "sellExTax"]

/-- Candidate keys for estimated cost in `_extract_job_fields`. -/
def estCostKeys : List String :=
  ["estimatedCostExTax", "estimatedCostsExTax", "estimatedCost", "budget.exTaxCost",
   "Totals.CostExTax", "totalCostEstimatedExTax"]

/-- Candidate keys for actual cost to date in `_extract_job_fields`. -/
def actCostKeys : List String :=
  ["actualCostToDateExTax", "actualCostExTax", "costToDateExTax", "costToDate",
   "Totals.ActualCostExTax"]

/-- Candidate keys for estimated hours in `_extract_job_fields`. -/
def estHoursKeys : List String :=
  ["estimatedHours", "totalHoursEstimated", "budget.estimatedHours"]

/-- Candidate keys for actual hours in `_extract_job_fields`. -/
def actHoursKeys : List String :=
  ["actualHoursToDate", "actualHours", "hoursToDate"]

/-- An optional float stored into the dict (`None` for SQL `NULL`). -/
def optNum : Option ℚ → FieldVal
  | some q => .num q
  | none => .null

/-- `_extract_job_fields` from `ingest.py`, on a JSON object body. -/
def extract_job_fields (j : JObj) : FieldDict :=
  let job_id : Int := ratTrunc (pyOrQ (first_number j ["id", "jobId"]) 0)
  let job_code := first_text j ["jobNumber", "code", "number", "jobCode"]
  let job_name := first_text j ["name", "jobName", "title"]
  let client_name := first_text j
    ["customer.name", "customer.companyName", "customerName", "client.name", "clientName"]
  let stage := infer_stage j
  let jtype := infer_type j
  let est_rev := first_number j estRevKeys
  let est_cost := first_number j estCostKeys
  let act_cost_td := first_number j actCostKeys
  let est_hours := first_number j estHoursKeys
  let act_hours := first_number j actHoursKeys
  let hours_today : ℚ := 0
  let cost_today : ℚ := 0
  -- if est_rev and est_cost is not None and est_rev > 0 (truthiness guards
  -- both the None cases and the division by zero)
  let gm_est_pct : Option ℚ :=
    match est_rev, est_cost with
    | some r, some c => if r ≠ 0 ∧ 0 < r then some ((r - c) / r) else none
    | _, _ => none
  let gm_act_pct : Option ℚ :=
    match est_rev, act_cost_td with
    | some r, some a => if r ≠ 0 ∧ 0 < r then some ((r - a) / r) else none
    | _, _ => none
  let cost_to_complete : Option ℚ :=
    match est_cost, act_cost_td with
    | some c, some a => some (max 0 (c - a))
    | _, _ => none
  [("job_id", .int job_id),
   ("job_code", .str job_code),
   ("job_name", .str job_name),
   ("client_name", .str client_name),
   ("stage", .str stage),
   ("type", .str jtype),
   ("estimated_revenue", .num (pyOrQ est_rev 0)),
   ("estimated_cost", .num (pyOrQ est_cost 0)),
   ("actual_cost_to_date", .num (pyOrQ act_cost_td 0)),
   ("estimated_hours", .num (pyOrQ est_hours 0)),
   ("actual_hours", .num (pyOrQ act_hours 0)),
   ("hours_today", .num hours_today),
   ("cost_today", .num cost_today),
   ("gm_estimated_pct", optNum gm_est_pct),
   ("gm_actual_pct", optNum gm_act_pct),
   ("cost_to_complete", optNum cost_to_complete)]

/-- `fields.get(k) or ""` followed by `.lower()`-style use: the stored
value is always a string when produced by `extract_job_fields`; a missing
or non-string value is read as `""`. -/
def fgetStr (fields : FieldDict) (k : String) : String :=
  match lookupF fields k with
  | some (.str s) => s
  | _ => ""

/-- `_is_active_project` from `ingest.py`. -/
def is_active_project (fields : FieldDict) : Bool :=
  let stage := pyLower (pyOrS (fgetStr fields "stage") "")
  let jtype := pyLower (pyOrS (fgetStr fields "type") "")
  if strIn "service" jtype then false
  else if strIn "archiv" stage || strIn "complete" stage then false
  else if strIn "pending" stage || strIn "progress" stage then true
  else false

/-- The HTTP behaviour of `GET companies/{cid}/jobs/{job_id}`: for each id
either a response `(status code, parsed JSON body)` or `none` for a raised
`requests.RequestException`.  The company id, token and base URL only feed
into the request URL and are not modelled. -/
abbrev HttpOracle := Int → Option (Nat × JVal)

/-- `_job_exists` from `ingest.py`: `(exists, job_json, status_code)`. -/
def job_exists (http : HttpOracle) (job_id : Int) : Bool × Option JVal × Option Nat :=
  match http job_id with
  | some (code, body) =>
    if code = 200 then (true, some body, some 200) else (false, none, some code)
  | none => (false, none, none)

/-- The wall-clock budget checks `time.time() < t_end`: an arbitrary boolean
predicate on a global loop-iteration counter.  `fun t => true` models a
budget that never expires. -/
abbrev TimePred := Nat → Bool

/-- The step-down loop of `_find_highest_job_id` (taken when the initial
probe answered a 404): repeatedly decrement `probe` by `step`, halving
`step` on a 404, until a probe exists, the budget expires, or `probe ≤ 1`.
Returns `(probe, ok, t)` where `ok` is the Python `ok` variable — `none`
models it never having been assigned (the loop body never ran, so the
`if not ok` line after the loop raises `NameError`).
The `0 < step` conjunct is a totality guard: it is unreachable from the
call site, where `step` starts at `max 1 (probe / 10)` and is only ever
replaced by `max 1 (step / 2)`. -/
def stepDown (http : HttpOracle) (timeOk : TimePred) :
    Int → Int → Option Bool → Nat → Int × Option Bool × Nat
  | probe, step, ok, t =>
    if h : timeOk t = true ∧ 1 < probe ∧ 0 < step then
      -- probe -= step
      match job_exists http (probe - step) with
      | (true, _, _) => (probe - step, some true, t + 1)
      | (false, _, sc) =>
        -- if sc == 404 and step > 1: step = max(1, step // 2)
        stepDown http timeOk (probe - step)
          (if sc = some 404 ∧ 1 < step then max 1 (step / 2) else step)
          (some false) (t + 1)
    else (probe, ok, t)
termination_by probe _ _ _ => probe.toNat
decreasing_by omega

/-- The ramp-up loop of `_find_highest_job_id` (taken otherwise): keep
doubling `probe` while the doubled id still exists, stopping on a 404, any
other failure, the budget, or the `5_000_000` cap.  The `0 < probe`
conjunct is a totality guard, unreachable from the call site where
`probe ≥ 100`. -/
def rampUp (http : HttpOracle) (timeOk : TimePred) : Int → Nat → Int × Nat
  | probe, t =>
    if h : timeOk t = true ∧ probe < 5000000 ∧ 0 < probe then
      -- nxt = probe * 2
      match job_exists http (probe * 2) with
      | (true, _, _) => rampUp http timeOk (probe * 2) (t + 1)
      | (false, _, sc) =>
        -- a 404 breaks, and so does any other failure (network error or
        -- non-404 status): either way the loop stops with `probe` kept
        (probe, t + 1)
    else (probe, t)
termination_by probe _ => (5000000 - probe).toNat
decreasing_by omega

/-- The binary-search loop of `_find_highest_job_id`: shrink `[lo, hi]`
around the highest existing id, remembering the last id that answered
`exists` in `lastGood`.  A 404 and any other failure both shrink `hi`. -/
def binSearch (http : HttpOracle) (timeOk : TimePred) :
    Int → Int → Int → Nat → Int × Nat
  | lo, hi, lastGood, t =>
    if h : timeOk t = true ∧ 1 < hi - lo then
      -- mid = (lo + hi) // 2
      match job_exists http ((lo + hi) / 2) with
      | (true, _, _) => binSearch http timeOk ((lo + hi) / 2) hi ((lo + hi) / 2) (t + 1)
      | (false, _, sc) => binSearch http timeOk lo ((lo + hi) / 2) lastGood (t + 1)
    else (lastGood, t)
termination_by lo hi _ _ => (hi - lo).toNat
decreasing_by all_goals omega

/-- The tail of `_find_highest_job_id` after the scanning phase left the
current `probe`: set up `[lo, hi]` (widening `hi` once when it exists),
binary-search, and apply `return int(last_good) if last_good else None`. -/
def findFinish (http : HttpOracle) (timeOk : TimePred) (probe : Int) (t : Nat) :
    Option Int :=
  let lo := max 1 probe
  let hi0 := probe * 2
  let hi := if (job_exists http hi0).1 then hi0 * 2 else hi0
  let (lastGood, _) := binSearch http timeOk lo hi lo t
  if lastGood = 0 then none else some lastGood

/-- The body of `_find_highest_job_id` from the initial existence probe
onward: step down on a 404 (running the `if not ok` check after the loop),
ramp up otherwise, then finish with the binary search.  The `Except.error`
result models the `NameError` raised at `if not ok:` when the step-down
loop body never ran. -/
def findScan (http : HttpOracle) (timeOk : TimePred) (probe : Int) :
    Except Unit (Option Int) :=
  match job_exists http probe with
  | (ex0, _, sc0) =>
    if ex0 = false ∧ sc0 = some 404 then
      -- step = max(1, probe // 10)
      match stepDown http timeOk probe (max 1 (probe / 10)) none 0 with
      | (_, none, _) => .error ()          -- NameError: `ok` unassigned
      | (_, some false, _) => .ok none     -- `if not ok: return None`
      | (probe1, some true, t1) => .ok (findFinish http timeOk probe1 t1)
    else
      match rampUp http timeOk probe 0 with
      | (probe1, t1) => .ok (findFinish http timeOk probe1 t1)

/-- `_find_highest_job_id` from `ingest.py`.  `last_seen` is the value of
`_db_last_seen_job_id()`; the starting probe is
`max(100, last_seen or 1000)`. -/
def find_highest_job_id (http : HttpOracle) (timeOk : TimePred)
    (last_seen : Option Int) : Except Unit (Option Int) :=
  findScan http timeOk (max 100 (match last_seen with
    | some v => if v = 0 then 1000 else v   -- `last_seen or 1000`
    | none => 1000))

/-- One row of the `job` table (the 17 inserted columns; the AUTOINCREMENT
row id is implicit as the list position). -/
structure JobRow where
  snapshot_id : Int
  job_id : FieldVal
  job_code : FieldVal
  job_name : FieldVal
  client_name : FieldVal
  stage : FieldVal
  jtype : FieldVal          -- column `type` (`type` is reserved in Lean)
  estimated_revenue : FieldVal
  estimated_cost : FieldVal
  actual_cost_to_date : FieldVal
  estimated_hours : FieldVal
  actual_hours : FieldVal
  hours_today : FieldVal
  cost_today : FieldVal
  gm_estimated_pct : FieldVal
  gm_actual_pct : FieldVal
  cost_to_complete : FieldVal
deriving DecidableEq

/-- The `eod.db` SQLite state: `snapshot` rows `(id, as_of)` with the
AUTOINCREMENT counter made explicit, `job` rows, and the `meta` table. -/
structure DB where
  nextSnapshotId : Int
  snapshots : List (Int × String)
  jobs : List JobRow
  meta : List (String × String)
deriving DecidableEq

/-- `_db_insert_snapshot`: insert `(id, now)` and return the new row id. -/
def db_insert_snapshot (db : DB) (now : String) : Int × DB :=
  (db.nextSnapshotId,
   { db with
      nextSnapshotId := db.nextSnapshotId + 1
      snapshots := db.snapshots ++ [(db.nextSnapshotId, now)] })

/-- `MAX` of a list of ints (SQL `MAX`, `NULL` on an empty set). -/
def maxIntList : List Int → Option Int
  | [] => none
  | x :: xs =>
    match maxIntList xs with
    | some m => some (max x m)
    | none => some x

/-- `_db_last_seen_job_id`: the greatest `job_id` among rows of the most
recent snapshot; `None` when there is no snapshot, no such row, the value
is `NULL`-ish, or — by `if row and row[0]:` truthiness — when it is `0`.
Only `.int` job ids are counted (the code always stores ints there). -/
def db_last_seen_job_id (db : DB) : Option Int :=
  match maxIntList (db.snapshots.map Prod.fst) with
  | none => none
  | some sid =>
    match maxIntList ((db.jobs.filter (fun r => r.snapshot_id = sid)).filterMap
        (fun r => match r.job_id with | .int n => some n | _ => none)) with
    | none => none
    | some m => if m = 0 then none else some m

/-- `_db_set_meta`: upsert `(k, v)` into the `meta` table. -/
def db_set_meta (db : DB) (k v : String) : DB :=
  if db.meta.any (fun p => p.1 = k) then
    { db with meta := db.meta.map (fun p => if p.1 = k then (k, v) else p) }
  else
    { db with meta := db.meta ++ [(k, v)] }

/-- Build the `job` table row inserted for one extracted dict (the
`executemany` tuple in `ingest_live`).  The dict always carries every key;
a missing key would be a Python `KeyError` and is modelled as `.null`
(unreachable for dicts built by `extract_job_fields`). -/
def toRow (sid : Int) (r : FieldDict) : JobRow :=
  let g := fun k => (lookupF r k).getD .null
  { snapshot_id := sid
    job_id := g "job_id"
    job_code := g "job_code"
    job_name := g "job_name"
    client_name := g "client_name"
    stage := g "stage"
    jtype := g "type"
    estimated_revenue := g "estimated_revenue"
    estimated_cost := g "estimated_cost"
    actual_cost_to_date := g "actual_cost_to_date"
    estimated_hours := g "estimated_hours"
    actual_hours := g "actual_hours"
    hours_today := g "hours_today"
    cost_today := g "cost_today"
    gm_estimated_pct := g "gm_estimated_pct"
    gm_actual_pct := g "gm_actual_pct"
    cost_to_complete := g "cost_to_complete" }

/-- The body of one walk iteration of `ingest_live`: on `if exists and j:`
extract the fields and append them when the job is an active project.
`Except.error` models the exception raised when a truthy 200-response body
is not a dict (`_extract_job_fields` then raises `AttributeError`). -/
def walkCollect : Bool × Option JVal × Option Nat → List FieldDict →
    Except Unit (List FieldDict)
  | (ex, jOpt, _sc), jobs =>
    match jOpt with
    | some jv =>
      if ex ∧ pyTruthy jv then
        match jv with
        | .obj o =>
          .ok (if is_active_project (extract_job_fields o) then
            jobs ++ [extract_job_fields o] else jobs)
        | _ => .error ()
      else .ok jobs
    | none => .ok jobs   -- includes the `sc is None` transient-error pass

/-- The downward collection loop of `ingest_live`: from `job_id` walk down,
collecting extracted dicts of active project jobs, until the budget
(`timeOk`), `job_id < 1`, or 150 jobs with 60% of the budget spent
(`past60`). -/
def walkDown (http : HttpOracle) (timeOk past60 : TimePred) :
    Int → List FieldDict → Nat → Nat →
    Except Unit (List FieldDict × Nat × Nat)
  | job_id, jobs, tried, t =>
    if h : timeOk t = true ∧ 1 ≤ job_id then
      -- tried += 1; exists, j, sc = _job_exists(job_id, cid, tok)
      match walkCollect (job_exists http job_id) jobs with
      | .error e => .error e
      | .ok jobs1 =>
        if 150 ≤ jobs1.length ∧ past60 t = true then
          .ok (jobs1, tried + 1, t + 1)   -- early break: enough jobs
        else
          walkDown http timeOk past60 (job_id - 1) jobs1 (tried + 1) (t + 1)
    else .ok (jobs, tried, t)
termination_by job_id _ _ _ => job_id.toNat
decreasing_by omega

/-- The value returned by `ingest_live` on normal completion. -/
structure IngestResult where
  ok : Bool
  jobs : Nat
  tried : Nat
  snapshot_id : Int
deriving DecidableEq

/-- Python `x or d` on an optional int (`hi = ... or 1200`). -/
def pyOrI (x : Option Int) (d : Int) : Int :=
  match x with
  | some v => if v = 0 then d else v
  | none => d

/-- The tail of `ingest_live` after the walk: insert one `job` row per
collected dict (all carrying the new snapshot id), update the `meta`
table (`last_snapshot_id`, and `last_seen_job_id` when jobs were found),
and build the response dict. -/
def ingestFinish (snapshot_id : Int) (db1 : DB) (jobsL : List FieldDict)
    (tried : Nat) : Except Unit IngestResult × DB :=
  let db2 := { db1 with jobs := db1.jobs ++ jobsL.map (toRow snapshot_id) }
  let db3 := db_set_meta db2 "last_snapshot_id" (toString snapshot_id)
  let db4 :=
    if jobsL.isEmpty then db3
    else
      -- max(j["job_id"] for j in jobs)
      match maxIntList (jobsL.filterMap
          (fun r => match lookupF r "job_id" with | some (.int n) => some n | _ => none)) with
      | some m => db_set_meta db3 "last_seen_job_id" (toString m)
      | none => db3
  (.ok { ok := true, jobs := jobsL.length, tried := tried,
         snapshot_id := snapshot_id }, db4)

/-- `ingest_live` from `ingest.py`.  `base_url = none` models a missing
`SIMPRO_BASE_URL` (a `RuntimeError` from `_env`), `token = none` a failed
`_get_token()`; both raise before any database write.  `timeOk1` is the
25%-budget clock of `_find_highest_job_id`, `timeOkW`/`past60` the full
budget clock of the walk.  The returned `DB` is the database state when
the call returns or the exception escapes.  The walk starts at the
discovered high-water mark, with `if not hi:` falling back to
`_db_last_seen_job_id() or 1200`. -/
def ingest_live (base_url token : Option String) (http : HttpOracle)
    (timeOk1 timeOkW past60 : TimePred) (now : String) (db : DB) :
    Except Unit IngestResult × DB :=
  match base_url with
  | none => (.error (), db)
  | some _ =>
    match token with
    | none => (.error (), db)
    | some _ =>
      match db_insert_snapshot db now with
      | (snapshot_id, db1) =>
        match find_highest_job_id http timeOk1 (db_last_seen_job_id db1) with
        | .error e => (.error e, db1)
        | .ok hiOpt =>
          match walkDown http timeOkW past60
              (pyOrI hiOpt (pyOrI (db_last_seen_job_id db1) 1200)) [] 0 0 with
          | .error e => (.error e, db1)
          | .ok (jobsL, tried, _) => ingestFinish snapshot_id db1 jobsL tried

/-! ### The `POST /ingest/live` route of `main.py` -/

/-- One HTTP response as seen by the probe loop in `main.py`:
status code, `Content-Type` header, and the parsed JSON body —
`jsonBody = none` models `r.json()` raising on an unparseable body. -/
structure HResp where
  status : Nat
  contentType : String
  jsonBody : Option JVal

/-- What the route's `status` local holds: the initial `None`, an integer
status code, or the `f"err:{e}"` string written by the `except` clause. -/
inductive PStatus where
  | noneV
  | code (n : Nat)
  | errStr
deriving DecidableEq

/-- Responses by URL; `none` models a raised request exception. -/
abbrev UrlOracle := String → Option HResp

/-- The candidate jobs endpoints probed by the route, in order. -/
def candidates : List String :=
  ["Jobs?$top=1", "jobs?$top=1", "ServiceJobs?$top=1", "Projects?$top=1",
   "Companies(0)/Jobs?$top=1", "companies(0)/jobs?$top=1", "$metadata"]

/-- Python `base.rstrip("/")`. -/
def rstripSlash (s : String) : String :=
  String.mk ((s.toList.reverse.dropWhile (fun c => c = '/')).reverse)

/-- The probing loop of the route: thread `tried`, `found`, `status` and
`body` through the candidate list exactly as the Python `for` loop does.
Note that when a 200 response declares a JSON content type but its body
fails to parse, `found` HAS already been set and the exception handler
then overwrites `status` and moves on without breaking. -/
def probeLoop (httpu : UrlOracle) (base : String) :
    List String → List String → Option String → PStatus → Option JVal →
    List String × Option String × PStatus × Option JVal
  | [], tried, found, status, body => (tried, found, status, body)
  | path :: rest, tried, found, status, body =>
    let url := rstripSlash base ++ "/" ++ path
    let tried1 := tried ++ [url]
    match httpu url with
    | none => probeLoop httpu base rest tried1 found .errStr body
    | some r =>
      if r.status = 200 then
        if strIn "application/json" r.contentType then
          match r.jsonBody with
          | some b => (tried1, some path, .code 200, some b)        -- break
          | none => probeLoop httpu base rest tried1 (some path) .errStr body
        else (tried1, some path, .code 200, some (.obj []))         -- break
      else probeLoop httpu base rest tried1 found (.code r.status) body

/-- What the route returns (the JSON response dict fields the claims are
about; `set_total` side effects on the `totals` table are not modelled). -/
structure LiveResult where
  ok : Bool
  endpoint_found : Option String
  count : Option Nat
  tried : List String
deriving DecidableEq

/-- The `POST /ingest/live` route of `main.py` (`ingest_live` there).
`token = none` models `_simpro_token()` raising (the `auth_error` return). -/
def route_ingest_live (token : Option String) (base : String)
    (httpu : UrlOracle) : LiveResult :=
  match token with
  | none => { ok := false, endpoint_found := none, count := none, tried := [] }
  | some _ =>
    let (tried, found, status, body) :=
      probeLoop httpu base candidates [] none .noneV none
    match found with
    | some path =>
      if status = .code 200 then
        let count : Nat :=
          match body with
          | some (.obj o) =>
            (match lookupA o "value" with
             | some (.arr xs) => xs.length
             | _ => 1)
          | some (.arr xs) => xs.length
          | _ => 1
        { ok := true, endpoint_found := some path, count := some count,
          tried := tried }
      else { ok := false, endpoint_found := none, count := none, tried := tried }
    | none => { ok := false, endpoint_found := none, count := none, tried := tried }

/-! ### `get_token` from `simpro.py` (the second, catch-and-log variant) -/

/-- The token endpoint's behaviour: `none` for a raised request exception,
else `(status, parsed JSON)` with `none` for an unparseable body. -/
abbrev TokenResp := Option (Nat × Option JVal)

/-- `payload.get(k)` with Python `None` for a missing key. -/
def jget (o : JObj) (k : String) : JVal :=
  (lookupA o k).getD .null

/-- Python `x or y` on JSON values. -/
def pyOrV (x y : JVal) : JVal :=
  if pyTruthy x then x else y

/-- `get_token` from `simpro.py`: returns the token value, or `none` on any
failure (HTTP error status, network error, unparseable or non-dict payload,
or a falsy token under all three keys).  Every Python exception path is a
`none`, so the embedding is total: the function never raises. -/
def get_token (resp : TokenResp) : Option JVal :=
  match resp with
  | none => none                               -- requests.post raised
  | some (status, bodyOpt) =>
    if 400 ≤ status ∧ status < 600 then none   -- raise_for_status → HTTPError
    else
      match bodyOpt with
      | none => none                           -- r.json() raised
      | some (.obj o) =>
        let token := pyOrV (pyOrV (jget o "access_token") (jget o "accessToken"))
          (jget o "token")
        if pyTruthy token then some token else none
      | some _ => none                         -- payload.get → AttributeError

/-! ### `metrics.py` -/

/-- One row as consumed by `compute_metrics`: every field optional
(`None`/missing are conflated, matching `dict.get` on rows whose present
values are numbers). -/
structure MRow where
  hours_today : Option ℚ
  labour_cost_today : Option ℚ
  materials_cost_today : Option ℚ
  po_value_today : Option ℚ
  invoiced_today : Option ℚ
  actual_cost_to_date : Option ℚ
  revenue_invoiced_to_date : Option ℚ
  burn_pct : Option ℚ
  gm_to_date : Option ℚ
  days_since_update : Option ℚ
deriving DecidableEq

/-- `safe_div` from `metrics.py`: `(n / d) if d else None`, with every
exception (including `None` operands) caught and returned as `None`. -/
def safe_div (n d : Option ℚ) : Option ℚ :=
  match d with
  | none => none                -- `if d` fails on None
  | some dv =>
    if dv = 0 then none         -- `if d` fails on 0
    else
      match n with
      | some nv => some (nv / dv)
      | none => none            -- `None / d` raises TypeError → caught

/-- The tuple returned by `compute_metrics` (totals flattened). -/
structure Metrics where
  totals_hours_today : ℚ
  totals_labour_cost_today : ℚ
  totals_materials_cost_today : ℚ
  totals_po_value_today : ℚ
  totals_invoiced_today : ℚ
  mtd_gm_pct : Option ℚ
  top5 : List MRow
  at_risk : List MRow
  exceptions : List MRow

/-- `compute_metrics` from `metrics.py`. -/
def compute_metrics (rows : List MRow) : Metrics :=
  let mtd_cost := (rows.map (fun r => pyOrQ r.actual_cost_to_date 0)).sum
  let mtd_revenue := (rows.map (fun r => pyOrQ r.revenue_invoiced_to_date 0)).sum
  -- Top 5 by cost added today (`.get(k, 0)`, a plain default — not `or`)
  let top5 := (rows.mergeSort (fun a b =>
    b.labour_cost_today.getD 0 + b.materials_cost_today.getD 0 ≤
      a.labour_cost_today.getD 0 + a.materials_cost_today.getD 0)).take 5
  let at_risk0 := rows.filter (fun r =>
    (0.80 ≤ pyOrQ r.burn_pct 0) || (pyOrQ r.gm_to_date 1 < 0.20))
  let at_risk := (at_risk0.mergeSort (fun a b =>
    pyOrQ b.burn_pct 0 ≤ pyOrQ a.burn_pct 0)).take 5
  let exceptions := rows.filter (fun r => 3 ≤ pyOrQ r.days_since_update 0)
  { totals_hours_today := (rows.map (fun r => pyOrQ r.hours_today 0)).sum
    totals_labour_cost_today := (rows.map (fun r => pyOrQ r.labour_cost_today 0)).sum
    totals_materials_cost_today := (rows.map (fun r => pyOrQ r.materials_cost_today 0)).sum
    totals_po_value_today := (rows.map (fun r => pyOrQ r.po_value_today 0)).sum
    totals_invoiced_today := (rows.map (fun r => pyOrQ r.invoiced_today 0)).sum
    mtd_gm_pct := safe_div (some (mtd_revenue - mtd_cost)) (some mtd_revenue)
    top5 := top5
    at_risk := at_risk
    exceptions := exceptions }

/-! ## Helper lemmas -/

theorem pyOrQ_zero (x : Option ℚ) : pyOrQ x 0 = x.getD 0 := by
  cases x with
  | none => rfl
  | some v =>
    by_cases h : v = 0 <;> simp [pyOrQ, h]

theorem isNull_iff (v : JVal) : v.isNull = true ↔ v = .null := by
  cases v <;> simp [JVal.isNull]

/-! ## C9: `safe_div` is total and guards the month-to-date margin -/

/-- C9: `safe_div` is total: it returns `None` when the denominator is zero
or `None`, or when the division raises (a `None` numerator), and `n / d`
otherwise; consequently `compute_metrics` reports `mtd_gm_pct = None`
rather than an error when month-to-date revenue is `0`. -/
theorem safe_div_total_and_gm_guard :
    (∀ n, safe_div n none = none) ∧
    (∀ n, safe_div n (some 0) = none) ∧
    (∀ dv : ℚ, dv ≠ 0 → safe_div none (some dv) = none) ∧
    (∀ nv dv : ℚ, dv ≠ 0 → safe_div (some nv) (some dv) = some (nv / dv)) ∧
    (∀ rows : List MRow,
      (rows.map (fun r => pyOrQ r.revenue_invoiced_to_date 0)).sum = 0 →
      (compute_metrics rows).mtd_gm_pct = none) := by
  refine ⟨fun n => rfl, fun n => by simp [safe_div], ?_, ?_, ?_⟩
  · intro dv h
    simp [safe_div, h]
  · intro nv dv h
    simp [safe_div, h]
  · intro rows h
    simp only [compute_metrics, h]
    simp [safe_div]

/-- C9 witness: concrete instances of the guarded cases. -/
theorem safe_div_total_and_gm_guard_witness :
    safe_div (some (6 : ℚ)) (some 2) = some (6 / 2) ∧
    safe_div none (some (2 : ℚ)) = none ∧
    (compute_metrics [⟨none, none, none, none, none, none, none, none, none, none⟩]).mtd_gm_pct
      = none :=
  ⟨safe_div_total_and_gm_guard.2.2.2.1 6 2 (by norm_num),
   safe_div_total_and_gm_guard.2.2.1 2 (by norm_num),
   safe_div_total_and_gm_guard.2.2.2.2 _ (by simp [pyOrQ])⟩

/-! ## C10: the `at_risk` selection of `compute_metrics` -/

/-- C10 counterexample: a row whose `gm_to_date` is present and equal to
`0.0` satisfies the claim's membership condition (`gm_to_date` below
`0.20`, burn treated as `0`), yet the code's `(r.get("gm_to_date") or 1)`
treats the falsy `0.0` as missing and excludes the row: `at_risk` is empty. -/
theorem at_risk_claim_counterexample :
    (compute_metrics [⟨none, none, none, none, none, none, none, some 0, some 0, none⟩]).at_risk
      = [] ∧
    ((some (0 : ℚ)).getD 1 < 0.20 ∧ ¬ (0.80 ≤ (some (0 : ℚ)).getD 0)) := by
  constructor
  · simp [compute_metrics, pyOrQ]
    norm_num
  · norm_num

/-- C10 (amended): `at_risk` contains exactly the rows whose `burn_pct`
(missing treated as `0`) is at least `0.80` or whose `gm_to_date` is
present, nonzero and below `0.20` (a missing OR ZERO `gm_to_date` is
treated as `1`), stably sorted by `burn_pct` descending and truncated to
at most 5 elements. -/
theorem at_risk_amended (rows : List MRow) :
    ∃ s : List MRow,
      s.Perm (rows.filter (fun r =>
        (0.80 ≤ r.burn_pct.getD 0) ||
        (match r.gm_to_date with
         | some g => decide (g ≠ 0 ∧ g < 0.20)
         | none => false))) ∧
      s.Pairwise (fun a b => pyOrQ b.burn_pct 0 ≤ pyOrQ a.burn_pct 0) ∧
      (compute_metrics rows).at_risk = s.take 5 := by
  have hpred : ∀ r : MRow,
      ((0.80 ≤ pyOrQ r.burn_pct 0) || (pyOrQ r.gm_to_date 1 < 0.20)) =
      ((0.80 ≤ r.burn_pct.getD 0) ||
        (match r.gm_to_date with
         | some g => decide (g ≠ 0 ∧ g < 0.20)
         | none => false)) := by
    intro r
    rw [pyOrQ_zero]
    cases hg : r.gm_to_date with
    | none => simp [pyOrQ]; norm_num
    | some g =>
      by_cases h0 : g = 0
      · simp [pyOrQ, h0]
        norm_num
      · simp [pyOrQ, h0]
  refine ⟨(rows.filter (fun r =>
      (0.80 ≤ pyOrQ r.burn_pct 0) || (pyOrQ r.gm_to_date 1 < 0.20))).mergeSort
      (fun a b => pyOrQ b.burn_pct 0 ≤ pyOrQ a.burn_pct 0), ?_, ?_,
      by simp only [compute_metrics]⟩
  · rw [← List.filter_congr (fun r _ => hpred r)]
    exact List.mergeSort_perm _ _
  · have hs := @List.sorted_mergeSort MRow
      (fun a b : MRow => decide (pyOrQ b.burn_pct 0 ≤ pyOrQ a.burn_pct 0))
      (fun a b c h₁ h₂ => by
        simp only [decide_eq_true_eq] at *
        exact le_trans h₂ h₁)
      (fun a b => by
        simp only [Bool.or_eq_true, decide_eq_true_eq]
        exact le_total _ _)
      (rows.filter (fun r =>
        (0.80 ≤ pyOrQ r.burn_pct 0) || (pyOrQ r.gm_to_date 1 < 0.20)))
    exact hs.imp (fun h => by simpa using h)

/-- C10 witness: the amended statement applied at a concrete row list. -/
theorem at_risk_amended_witness :
    ∃ s : List MRow,
      s.Perm ([(⟨none, none, none, none, none, none, none, some 1, none, none⟩ : MRow)].filter
        (fun r =>
          (0.80 ≤ r.burn_pct.getD 0) ||
          (match r.gm_to_date with
           | some g => decide (g ≠ 0 ∧ g < 0.20)
           | none => false))) ∧
      s.Pairwise (fun a b => pyOrQ b.burn_pct 0 ≤ pyOrQ a.burn_pct 0) ∧
      (compute_metrics [⟨none, none, none, none, none, none, none, some 1, none, none⟩]).at_risk
        = s.take 5 :=
  at_risk_amended _

/-! ## C8: `get_token` never raises and returns the token exactly on success -/

/-- C8: `get_token` (the catch-and-log variant in `simpro.py`) is total —
every failure outcome (network exception, 4xx/5xx status, unparseable or
non-dict payload, all three token keys missing or falsy) yields `none`,
and it yields `some t` exactly when the request succeeded, the payload is
a JSON object, and `t` is the first truthy value under
`access_token`/`accessToken`/`token`. -/
theorem get_token_spec (resp : TokenResp) :
    ∀ t, get_token resp = some t ↔
      ∃ status o, resp = some (status, some (.obj o)) ∧
        ¬(400 ≤ status ∧ status < 600) ∧
        t = pyOrV (pyOrV (jget o "access_token") (jget o "accessToken")) (jget o "token") ∧
        pyTruthy t = true := by
  intro t
  constructor
  · intro h
    match resp with
    | none => simp [get_token] at h
    | some (status, bodyOpt) =>
      by_cases hs : 400 ≤ status ∧ status < 600
      · simp [get_token, hs] at h
      · match bodyOpt with
        | none => simp [get_token, hs] at h
        | some (.obj o) =>
          simp only [get_token, hs, if_false] at h
          by_cases ht : pyTruthy (pyOrV (pyOrV (jget o "access_token")
              (jget o "accessToken")) (jget o "token")) = true
          · simp only [ht, if_true, Option.some.injEq] at h
            exact ⟨status, o, rfl, hs, h.symm, h ▸ ht⟩
          · simp [ht] at h
        | some .null => simp [get_token, hs] at h
        | some (.bool b) => simp [get_token, hs] at h
        | some (.num q) => simp [get_token, hs] at h
        | some (.str s) => simp [get_token, hs] at h
        | some (.arr xs) => simp [get_token, hs] at h
  · rintro ⟨status, o, rfl, hs, rfl, ht⟩
    simp [get_token, hs, ht]

/-- C8 witness: a 200 response whose payload holds the token under the
second key, and a 500 response yielding `none`. -/
theorem get_token_spec_witness :
    get_token (some (200, some (.obj [("accessToken", .str "tok")]))) = some (.str "tok") ∧
    get_token (some (500, some (.obj [("accessToken", .str "tok")]))) = none := by
  constructor
  · exact (get_token_spec _ _).2
      ⟨200, [("accessToken", .str "tok")], rfl, by norm_num, by rfl, by rfl⟩
  · rfl

/-! ## C6: `_extract_job_fields` always yields the fixed row dict -/

/-- C6 counterexample to the claimed key count: the dict built by
`_extract_job_fields` has exactly 16 distinct keys (`job_id` through
`cost_to_complete`), not 17 — the 17th inserted column, `snapshot_id`, is
added later by `ingest_live` and is not part of this dict. -/
theorem extract_fields_key_count_counterexample :
    (extract_job_fields []).length = 16 ∧
    ((extract_job_fields []).map Prod.fst).Nodup ∧
    ¬ (extract_job_fields []).length = 17 := by
  refine ⟨rfl, ?_, by decide⟩
  decide

/-- C6 (amended): for every JSON object, `_extract_job_fields` returns
(without raising) a dict with exactly the 16 fixed row keys `job_id`
through `cost_to_complete`; the numeric totals fields default to `0.0`
when no candidate key yields a number; and the two margin fields are
computed only when estimated revenue is present and strictly positive
(and the other operand is present), so the divisions are guarded. -/
theorem extract_fields_spec (j : JObj) :
    ((extract_job_fields j).map Prod.fst =
      ["job_id", "job_code", "job_name", "client_name", "stage", "type",
       "estimated_revenue", "estimated_cost", "actual_cost_to_date",
       "estimated_hours", "actual_hours", "hours_today", "cost_today",
       "gm_estimated_pct", "gm_actual_pct", "cost_to_complete"]) ∧
    (first_number j estRevKeys = none →
      lookupF (extract_job_fields j) "estimated_revenue" = some (.num 0)) ∧
    (first_number j estCostKeys = none →
      lookupF (extract_job_fields j) "estimated_cost" = some (.num 0)) ∧
    (first_number j actCostKeys = none →
      lookupF (extract_job_fields j) "actual_cost_to_date" = some (.num 0)) ∧
    (first_number j estHoursKeys = none →
      lookupF (extract_job_fields j) "estimated_hours" = some (.num 0)) ∧
    (first_number j actHoursKeys = none →
      lookupF (extract_job_fields j) "actual_hours" = some (.num 0)) ∧
    (∀ q, lookupF (extract_job_fields j) "gm_estimated_pct" = some (.num q) →
      ∃ r c, first_number j estRevKeys = some r ∧ 0 < r ∧
        first_number j estCostKeys = some c ∧ q = (r - c) / r) ∧
    (∀ q, lookupF (extract_job_fields j) "gm_actual_pct" = some (.num q) →
      ∃ r a, first_number j estRevKeys = some r ∧ 0 < r ∧
        first_number j actCostKeys = some a ∧ q = (r - a) / r) := by
  refine ⟨rfl, ?_, ?_, ?_, ?_, ?_, ?_, ?_⟩
  · intro h; simp [extract_job_fields, lookupF, h, pyOrQ]
  · intro h; simp [extract_job_fields, lookupF, h, pyOrQ]
  · intro h; simp [extract_job_fields, lookupF, h, pyOrQ]
  · intro h; simp [extract_job_fields, lookupF, h, pyOrQ]
  · intro h; simp [extract_job_fields, lookupF, h, pyOrQ]
  · intro q hq
    simp only [extract_job_fields, lookupF, String.reduceEq, reduceIte,
      Option.some.injEq] at hq
    match hr : first_number j estRevKeys, hc : first_number j estCostKeys with
    | some r, some c =>
      simp only [hr, hc] at hq
      by_cases hpos : r ≠ 0 ∧ 0 < r
      · rw [if_pos hpos] at hq
        simp only [optNum, FieldVal.num.injEq] at hq
        exact ⟨r, c, rfl, hpos.2, rfl, hq.symm⟩
      · rw [if_neg hpos] at hq
        simp [optNum] at hq
    | some r, none => simp [hr, hc, optNum] at hq
    | none, some c => simp [hr, hc, optNum] at hq
    | none, none => simp [hr, hc, optNum] at hq
  · intro q hq
    simp only [extract_job_fields, lookupF, String.reduceEq, reduceIte,
      Option.some.injEq] at hq
    match hr : first_number j estRevKeys, ha : first_number j actCostKeys with
    | some r, some a =>
      simp only [hr, ha] at hq
      by_cases hpos : r ≠ 0 ∧ 0 < r
      · rw [if_pos hpos] at hq
        simp only [optNum, FieldVal.num.injEq] at hq
        exact ⟨r, a, rfl, hpos.2, rfl, hq.symm⟩
      · rw [if_neg hpos] at hq
        simp [optNum] at hq
    | some r, none => simp [hr, ha, optNum] at hq
    | none, some a => simp [hr, ha, optNum] at hq
    | none, none => simp [hr, ha, optNum] at hq

/-- C6 witness: the defaults at the empty payload, and the guarded margin
at a payload with positive estimated revenue. -/
theorem extract_fields_spec_witness :
    (lookupF (extract_job_fields []) "estimated_revenue" = some (.num 0)) ∧
    (∃ r c, first_number [("quotedPriceExTax", .num 10), ("estimatedCostExTax", .num 4)]
        estRevKeys = some r ∧ 0 < r ∧
      first_number [("quotedPriceExTax", .num 10), ("estimatedCostExTax", .num 4)]
        estCostKeys = some c ∧ ((10 - 4 : ℚ) / 10) = (r - c) / r) :=
  ⟨(extract_fields_spec []).2.1 (by decide),
   (extract_fields_spec _).2.2.2.2.2.2.1 ((10 - 4 : ℚ) / 10) (by
    have h10 : first_number [("quotedPriceExTax", JVal.num 10),
        ("estimatedCostExTax", JVal.num 4)] estRevKeys = some 10 := by decide
    have h4 : first_number [("quotedPriceExTax", JVal.num 10),
        ("estimatedCostExTax", JVal.num 4)] estCostKeys = some 4 := by decide
    simp only [extract_job_fields, lookupF, String.reduceEq, reduceIte, h10, h4]
    rw [if_pos (by norm_num)]
    simp [optNum])⟩

/-! ## C3: `_first_number` returns the first usable candidate key -/

/-- Candidate key `k` is skipped by `_first_number`: it does not resolve in
`j` (dotted keys as nested-dict paths), or resolves to `None`, or its value
does not convert to float. -/
def numKeyFails (j : JObj) (k : String) : Prop :=
  ∀ v, keyProbe j k = some v → v = .null ∨ pyFloat v = none

theorem tryKeyNumber_eq_none_iff (j : JObj) (k : String) :
    tryKeyNumber j k = none ↔ numKeyFails j k := by
  unfold tryKeyNumber numKeyFails
  cases h : keyProbe j k with
  | none => simp
  | some node =>
    by_cases hn : node.isNull = true
    · simp only [hn, if_true, true_iff]
      intro v hv
      cases hv
      exact Or.inl ((isNull_iff node).mp hn)
    · simp only [hn, Bool.false_eq_true, if_false]
      constructor
      · intro hf v hv
        cases hv
        exact Or.inr hf
      · intro hall
        rcases hall node rfl with hnull | hf
        · exact absurd ((isNull_iff node).mpr hnull) (by simp [hn])
        · exact hf

theorem tryKeyNumber_eq_some_iff (j : JObj) (k : String) (q : ℚ) :
    tryKeyNumber j k = some q ↔
      ∃ v, keyProbe j k = some v ∧ v ≠ .null ∧ pyFloat v = some q := by
  unfold tryKeyNumber
  cases h : keyProbe j k with
  | none => simp
  | some node =>
    by_cases hn : node.isNull = true
    · simp only [hn, if_true]
      constructor
      · intro hv; cases hv
      · rintro ⟨v, hv, hvn, _⟩
        cases hv
        exact absurd ((isNull_iff node).mp hn) hvn
    · simp only [hn, Bool.false_eq_true, if_false]
      constructor
      · intro hf
        refine ⟨node, rfl, ?_, hf⟩
        intro hnull
        exact absurd ((isNull_iff node).mpr hnull) (by simp [hn])
      · rintro ⟨v, hv, _, hf⟩
        cases hv
        exact hf

/-- C3: `_first_number(j, ks)` returns the float value of the first key of
`ks` that is present in `j` (dotted keys resolved as nested-dict paths), is
not `None`, and converts to float; keys that are present but not
convertible are skipped, and if no key qualifies the result is `None`. -/
theorem first_number_spec (j : JObj) : ∀ ks : List String,
    ((first_number j ks = none) ↔ ∀ k ∈ ks, numKeyFails j k) ∧
    (∀ q, first_number j ks = some q ↔
      ∃ ks₁ k ks₂, ks = ks₁ ++ k :: ks₂ ∧ (∀ kk ∈ ks₁, numKeyFails j kk) ∧
        ∃ v, keyProbe j k = some v ∧ v ≠ .null ∧ pyFloat v = some q) := by
  intro ks
  induction ks with
  | nil =>
    constructor
    · simp [first_number]
    · intro q
      simp only [first_number, false_iff]
      constructor
      · intro hv; cases hv
      · rintro ⟨ks₁, k, ks₂, hdec, -, -⟩
        exact absurd hdec (by simp)
  | cons k ks ih =>
    cases h : tryKeyNumber j k with
    | some v =>
      have hsome := (tryKeyNumber_eq_some_iff j k v).mp h
      constructor
      · simp only [first_number, h]
        refine iff_of_false (by simp) ?_
        intro hall
        rcases hsome with ⟨v0, hp, hvn, hf⟩
        rcases hall k (by simp) v0 hp with h1 | h2
        · exact hvn h1
        · rw [h2] at hf; cases hf
      · intro q
        simp only [first_number, h, Option.some.injEq]
        constructor
        · rintro rfl
          exact ⟨[], k, ks, rfl, by simp, hsome⟩
        · rintro ⟨ks₁, kmid, ks₂, hdec, hpre, v0, hp, hvn, hf⟩
          cases ks₁ with
          | nil =>
            simp only [List.nil_append, List.cons.injEq] at hdec
            rcases hsome with ⟨v1, hp1, hvn1, hf1⟩
            rw [hdec.1] at hp1
            rw [hp1] at hp
            cases hp
            rw [hf1] at hf
            cases hf
            rfl
          | cons a as =>
            simp only [List.cons_append, List.cons.injEq] at hdec
            rcases hsome with ⟨v1, hp1, hvn1, hf1⟩
            rcases hpre a (by simp) v1 (hdec.1 ▸ hp1) with h1 | h2
            · exact absurd h1 hvn1
            · rw [h2] at hf1; cases hf1
    | none =>
      have hfail := (tryKeyNumber_eq_none_iff j k).mp h
      constructor
      · simp only [first_number, h]
        rw [ih.1]
        constructor
        · intro hall kk hkk
          rcases List.mem_cons.mp hkk with rfl | hmem
          · exact hfail
          · exact hall kk hmem
        · intro hall kk hkk
          exact hall kk (List.mem_cons_of_mem _ hkk)
      · intro q
        simp only [first_number, h]
        rw [(ih.2 q)]
        constructor
        · rintro ⟨ks₁, kmid, ks₂, hdec, hpre, hwit⟩
          refine ⟨k :: ks₁, kmid, ks₂, by simp [hdec], ?_, hwit⟩
          intro kk hkk
          rcases List.mem_cons.mp hkk with rfl | hmem
          · exact hfail
          · exact hpre kk hmem
        · rintro ⟨ks₁, kmid, ks₂, hdec, hpre, v0, hp, hvn, hf⟩
          cases ks₁ with
          | nil =>
            simp only [List.nil_append, List.cons.injEq] at hdec
            rcases hfail v0 (hdec.1 ▸ hp) with h1 | h2
            · exact absurd h1 hvn
            · rw [h2] at hf; cases hf
          | cons a as =>
            simp only [List.cons_append, List.cons.injEq] at hdec
            exact ⟨as, kmid, ks₂, hdec.2, fun kk hkk => hpre kk (by simp [hkk]), v0, hp, hvn, hf⟩

/-- C3 witness: on a payload where the first candidate is a non-convertible
string and the second a number, the second key's value is returned. -/
theorem first_number_spec_witness :
    first_number [("a", .str "zz"), ("b", .num 7)] ["a", "b"] = some 7 ↔
      ∃ ks₁ k ks₂, ["a", "b"] = ks₁ ++ k :: ks₂ ∧
        (∀ kk ∈ ks₁, numKeyFails [("a", .str "zz"), ("b", .num 7)] kk) ∧
        ∃ v, keyProbe [("a", .str "zz"), ("b", .num 7)] k = some v ∧ v ≠ .null ∧
          pyFloat v = some 7 :=
  (first_number_spec [("a", .str "zz"), ("b", .num 7)] ["a", "b"]).2 7

/-! ## C4: the probe order and stopping rule of the `/ingest/live` route -/

/-- The first member of a list satisfying a predicate, as an explicit
decomposition. -/
theorem exists_first_mem {α : Type} {P : α → Prop} : ∀ l : List α,
    (∃ x ∈ l, P x) →
    ∃ l₁ x l₂, l = l₁ ++ x :: l₂ ∧ P x ∧ ∀ y ∈ l₁, ¬ P y := by
  intro l
  induction l with
  | nil => simp
  | cons a as ih =>
    intro hex
    by_cases ha : P a
    · exact ⟨[], a, as, rfl, ha, by simp⟩
    · have hex2 : ∃ x ∈ as, P x := by
        rcases hex with ⟨x, hx, hPx⟩
        rcases List.mem_cons.mp hx with rfl | hmem
        · exact absurd hPx ha
        · exact ⟨x, hmem, hPx⟩
      rcases ih hex2 with ⟨l₁, x, l₂, hdec, hPx, hpre⟩
      refine ⟨a :: l₁, x, l₂, by simp [hdec], hPx, ?_⟩
      intro y hy
      rcases List.mem_cons.mp hy with rfl | hmem
      · exact ha
      · exact hpre y hmem

/-- Candidate path `p` yields a response the route accepts: HTTP 200 with
a body the route can read (either the content type does not declare JSON,
or the JSON parses). -/
def goodCand (httpu : UrlOracle) (base : String) (p : String) : Prop :=
  ∃ r, httpu (rstripSlash base ++ "/" ++ p) = some r ∧ r.status = 200 ∧
    (strIn "application/json" r.contentType = true → r.jsonBody ≠ none)

instance goodCandDec (httpu : UrlOracle) (base p : String) :
    Decidable (goodCand httpu base p) :=
  match h : httpu (rstripSlash base ++ "/" ++ p) with
  | some r =>
    decidable_of_iff
      (r.status = 200 ∧
        (strIn "application/json" r.contentType = false ∨ r.jsonBody.isSome = true))
      (by
        constructor
        · rintro ⟨h200, hor⟩
          refine ⟨r, h, h200, ?_⟩
          intro hct hnone
          rcases hor with hf | hs
          · rw [hct] at hf
            cases hf
          · rw [hnone] at hs
            cases hs
        · rintro ⟨r1, hr1, h200, hb⟩
          rw [h] at hr1
          cases hr1
          refine ⟨h200, ?_⟩
          by_cases hct : strIn "application/json" r.contentType = true
          · right
            rcases hjb : r.jsonBody with _ | b
            · exact absurd hjb (hb hct)
            · rfl
          · left
            cases hcv : strIn "application/json" r.contentType
            · rfl
            · exact absurd hcv hct)
  | none =>
    isFalse (by
      rintro ⟨r, hr, -⟩
      rw [h] at hr
      cases hr)

/-- When no remaining candidate is good, the loop visits every one of them
and cannot end in a fresh 200 status. -/
theorem probeLoop_no_good (httpu : UrlOracle) (base : String) :
    ∀ (paths : List String) tried found status body,
      (∀ p ∈ paths, ¬ goodCand httpu base p) →
      (probeLoop httpu base paths tried found status body).1 =
        tried ++ paths.map (fun p => rstripSlash base ++ "/" ++ p) ∧
      ((probeLoop httpu base paths tried found status body).2.2.1 = .code 200 →
        status = .code 200 ∧ paths = []) := by
  intro paths
  induction paths with
  | nil =>
    intro tried found status body hfail
    exact ⟨by simp [probeLoop], fun h => ⟨h, rfl⟩⟩
  | cons p rest ih =>
    intro tried found status body hfail
    have hp : ¬ goodCand httpu base p := hfail p (by simp)
    have hrest : ∀ q ∈ rest, ¬ goodCand httpu base q :=
      fun q hq => hfail q (by simp [hq])
    simp only [probeLoop]
    cases hu : httpu (rstripSlash base ++ "/" ++ p) with
    | none =>
      rcases ih (tried ++ [rstripSlash base ++ "/" ++ p]) found .errStr body hrest
        with ⟨h1, h2⟩
      refine ⟨by rw [h1]; simp, ?_⟩
      intro hcode
      rcases h2 hcode with ⟨hbad, -⟩
      cases hbad
    | some r =>
      by_cases h200 : r.status = 200
      · by_cases hct : strIn "application/json" r.contentType = true
        · cases hjb : r.jsonBody with
          | some b =>
            exact absurd ⟨r, hu, h200, fun _ => by simp [hjb]⟩ hp
          | none =>
            simp only [h200, if_true, hct]
            rcases ih (tried ++ [rstripSlash base ++ "/" ++ p]) (some p) .errStr body hrest
              with ⟨h1, h2⟩
            rw [hjb]
            refine ⟨by rw [h1]; simp, ?_⟩
            intro hcode
            rcases h2 hcode with ⟨hbad, -⟩
            cases hbad
        · exact absurd ⟨r, hu, h200, fun hc => absurd hc hct⟩ hp
      · simp only [h200, if_false]
        rcases ih (tried ++ [rstripSlash base ++ "/" ++ p]) found (.code r.status) body hrest
          with ⟨h1, h2⟩
        refine ⟨by rw [h1]; simp, ?_⟩
        intro hcode
        rcases h2 hcode with ⟨hbad, -⟩
        exact absurd (PStatus.code.inj hbad) h200

/-- Reaching the first good candidate: the loop breaks there, reporting it
as found with status 200, having tried exactly the URLs up to it. -/
theorem probeLoop_first_good (httpu : UrlOracle) (base : String) :
    ∀ (ks₁ : List String) (p : String) (ks₂ : List String) tried found status body,
      (∀ kk ∈ ks₁, ¬ goodCand httpu base kk) → goodCand httpu base p →
      ∃ b, probeLoop httpu base (ks₁ ++ p :: ks₂) tried found status body =
        (tried ++ (ks₁ ++ [p]).map (fun q => rstripSlash base ++ "/" ++ q),
          some p, .code 200, some b) := by
  intro ks₁
  induction ks₁ with
  | nil =>
    intro p ks₂ tried found status body _ hgood
    rcases hgood with ⟨r, hu, h200, hbody⟩
    simp only [List.nil_append, probeLoop, hu, h200, if_true]
    by_cases hct : strIn "application/json" r.contentType = true
    · cases hjb : r.jsonBody with
      | some b => exact ⟨b, by simp [hct, hjb]⟩
      | none => exact absurd hjb (hbody hct)
    · refine ⟨.obj [], ?_⟩
      simp only [Bool.not_eq_true] at hct
      simp [hct]
  | cons kk rest ih =>
    intro p ks₂ tried found status body hpre hgood
    have hkk : ¬ goodCand httpu base kk := hpre kk (by simp)
    have hrest : ∀ q ∈ rest, ¬ goodCand httpu base q :=
      fun q hq => hpre q (by simp [hq])
    simp only [List.cons_append, probeLoop]
    cases hu : httpu (rstripSlash base ++ "/" ++ kk) with
    | none =>
      rcases ih p ks₂ (tried ++ [rstripSlash base ++ "/" ++ kk]) found .errStr body hrest hgood
        with ⟨b, hb⟩
      exact ⟨b, by simpa [List.append_eq] using hb⟩
    | some r =>
      by_cases h200 : r.status = 200
      · by_cases hct : strIn "application/json" r.contentType = true
        · cases hjb : r.jsonBody with
          | some b =>
            exact absurd ⟨r, hu, h200, fun _ => by simp [hjb]⟩ hkk
          | none =>
            simp only [h200, if_true, hct, hjb]
            rcases ih p ks₂ (tried ++ [rstripSlash base ++ "/" ++ kk]) (some kk) .errStr body
              hrest hgood with ⟨b, hb⟩
            exact ⟨b, by simpa [List.append_eq] using hb⟩
        · exact absurd ⟨r, hu, h200, fun hc => absurd hc hct⟩ hkk
      · simp only [h200, if_false]
        rcases ih p ks₂ (tried ++ [rstripSlash base ++ "/" ++ kk]) found (.code r.status) body
          hrest hgood with ⟨b, hb⟩
        exact ⟨b, by simpa [List.append_eq] using hb⟩

/-- C4 (amended): with a token in hand, the route probes the candidate
paths in the listed order and stops at the first whose response is a 200
with a readable body, reporting it as `endpoint_found` with `ok = true`;
when no candidate yields such a response it probes all of them and reports
`ok = false`, and a failed token acquisition also reports `ok = false`.
(A bare 200 whose declared-JSON body fails to parse is NOT accepted — see
the counterexample — which is the correction to the claim.) -/
theorem route_probe_spec (httpu : UrlOracle) (base : String) (tk : String) :
    ((route_ingest_live (some tk) base httpu).ok = true ↔
      ∃ p ∈ candidates, goodCand httpu base p) ∧
    (∀ ks₁ p ks₂, candidates = ks₁ ++ p :: ks₂ →
      (∀ kk ∈ ks₁, ¬ goodCand httpu base kk) → goodCand httpu base p →
      (route_ingest_live (some tk) base httpu).endpoint_found = some p ∧
      (route_ingest_live (some tk) base httpu).tried =
        (ks₁ ++ [p]).map (fun q => rstripSlash base ++ "/" ++ q)) ∧
    ((¬ ∃ p ∈ candidates, goodCand httpu base p) →
      (route_ingest_live (some tk) base httpu).ok = false ∧
      (route_ingest_live (some tk) base httpu).tried =
        candidates.map (fun q => rstripSlash base ++ "/" ++ q)) ∧
    (route_ingest_live none base httpu).ok = false := by
  refine ⟨?_, ?_, ?_, rfl⟩
  · constructor
    · intro hok
      by_contra hno
      push_neg at hno
      rcases probeLoop_no_good httpu base candidates [] none .noneV none
        (fun p hp => hno p hp) with ⟨-, h2⟩
      simp only [route_ingest_live] at hok
      rcases hfo : (probeLoop httpu base candidates [] none .noneV none).2.1 with _ | path
      · rw [hfo] at hok
        simp at hok
      · rw [hfo] at hok
        by_cases hst : (probeLoop httpu base candidates [] none .noneV none).2.2.1 = .code 200
        · rcases h2 hst with ⟨-, hnil⟩
          simp [candidates] at hnil
        · simp [hst] at hok
    · intro hex
      rcases exists_first_mem candidates hex with ⟨ks₁, p, ks₂, hdec, hgood, hpre⟩
      rcases probeLoop_first_good httpu base ks₁ p ks₂ [] none .noneV none hpre hgood
        with ⟨b, hb⟩
      rw [← hdec] at hb
      simp [route_ingest_live, hb]
  · intro ks₁ p ks₂ hdec hpre hgood
    rcases probeLoop_first_good httpu base ks₁ p ks₂ [] none .noneV none hpre hgood
      with ⟨b, hb⟩
    rw [← hdec] at hb
    constructor
    · simp [route_ingest_live, hb]
    · simp [route_ingest_live, hb]
  · intro hno
    push_neg at hno
    rcases probeLoop_no_good httpu base candidates [] none .noneV none
      (fun p hp => hno p hp) with ⟨h1, h2⟩
    constructor
    · simp only [route_ingest_live]
      rcases hfo : (probeLoop httpu base candidates [] none .noneV none).2.1 with _ | path
      · simp [hfo]
      · by_cases hst : (probeLoop httpu base candidates [] none .noneV none).2.2.1 = .code 200
        · rcases h2 hst with ⟨-, hnil⟩
          simp [candidates] at hnil
        · simp [hfo, hst]
    · simp only [route_ingest_live]
      rcases hfo : (probeLoop httpu base candidates [] none .noneV none).2.1 with _ | path
      · simp [hfo, h1]
      · by_cases hst : (probeLoop httpu base candidates [] none .noneV none).2.2.1 = .code 200
        · rcases h2 hst with ⟨-, hnil⟩
          simp [candidates] at hnil
        · simp [hfo, hst, h1]

/-- The counterexample oracle for C4: the first candidate URL answers 200
with a declared-JSON body that fails to parse; every other URL answers 404. -/
def cexHttpu : UrlOracle := fun url =>
  if url = "https://x/Jobs?$top=1" then some ⟨200, "application/json", none⟩
  else some ⟨404, "", none⟩

/-- C4 counterexample: the first candidate's response status is 200, yet
the route does not stop there — it probes all seven candidates and reports
`ok = false` — because `r.json()` raises on the unparseable body after
`found` was already assigned. -/
theorem route_claim_counterexample :
    (route_ingest_live (some "t") "https://x" cexHttpu).ok = false ∧
    (route_ingest_live (some "t") "https://x" cexHttpu).tried.length = 7 ∧
    ∃ r, cexHttpu ("https://x/Jobs?$top=1") = some r ∧ r.status = 200 := by
  refine ⟨by decide, by decide, ⟨_, rfl, rfl⟩⟩

/-- The witness oracle for C4: the second candidate URL answers 200 with a
non-JSON content type; every other URL answers 404. -/
def witHttpu : UrlOracle := fun url =>
  if url = "https://y/jobs?$top=1" then some ⟨200, "text/plain", none⟩
  else some ⟨404, "", none⟩

/-- C4 witness: with the second candidate good, the route reports it as
`endpoint_found` and has tried exactly the first two URLs. -/
theorem route_probe_spec_witness :
    (route_ingest_live (some "t") "https://y" witHttpu).endpoint_found =
      some "jobs?$top=1" ∧
    (route_ingest_live (some "t") "https://y" witHttpu).tried =
      (["Jobs?$top=1"] ++ ["jobs?$top=1"]).map
        (fun q => rstripSlash "https://y" ++ "/" ++ q) :=
  (route_probe_spec witHttpu "https://y" "t").2.1 ["Jobs?$top=1"] "jobs?$top=1"
    ["ServiceJobs?$top=1", "Projects?$top=1", "Companies(0)/Jobs?$top=1",
     "companies(0)/jobs?$top=1", "$metadata"]
    (by decide) (by decide) (by decide)

/-! ## C7: every scanning loop terminates with a budget-independent bound
on its iteration count (the tick counter `t` advances once per iteration). -/

theorem stepDown_tick_bound (http : HttpOracle) (timeOk : TimePred) :
    ∀ probe step ok0 t,
      (stepDown http timeOk probe step ok0 t).2.2 ≤ t + probe.toNat := by
  intro probe step ok0 t
  induction probe, step, ok0, t using stepDown.induct http timeOk with
  | case1 probe step ok0 t h fst snd hje =>
    rw [stepDown, dif_pos h]
    simp only [hje]
    omega
  | case2 probe step ok0 t h fst sc hje ih =>
    rw [stepDown, dif_pos h]
    simp only [hje]
    exact le_trans ih (by omega)
  | case3 probe step ok0 t h =>
    rw [stepDown, dif_neg h]
    exact Nat.le_add_right t _

theorem rampUp_tick_bound (http : HttpOracle) (timeOk : TimePred) :
    ∀ probe t, ∀ n : Nat, 5000000 ≤ probe * 2 ^ n →
      (rampUp http timeOk probe t).2 ≤ t + n + 1 := by
  intro probe t
  induction probe, t using rampUp.induct http timeOk with
  | case1 probe t h fst snd hje ih =>
    intro n hn
    rw [rampUp, dif_pos h]
    simp only [hje]
    cases n with
    | zero =>
      simp only [pow_zero, mul_one] at hn
      omega
    | succ m =>
      have hn2 : 5000000 ≤ probe * 2 * 2 ^ m := by
        calc (5000000 : Int) ≤ probe * 2 ^ (m + 1) := hn
        _ = probe * 2 * 2 ^ m := by ring
      have := ih m hn2
      omega
  | case2 probe t h fst sc hje =>
    intro n hn
    rw [rampUp, dif_pos h]
    simp only [hje]
    omega
  | case3 probe t h =>
    intro n hn
    rw [rampUp, dif_neg h]
    omega

theorem binSearch_tick_bound (http : HttpOracle) (timeOk : TimePred) :
    ∀ lo hi lastGood t,
      (binSearch http timeOk lo hi lastGood t).2 ≤ t + (hi - lo).toNat := by
  intro lo hi lastGood t
  induction lo, hi, lastGood, t using binSearch.induct http timeOk with
  | case1 lo hi lastGood t h fst snd hje ih =>
    rw [binSearch, dif_pos h]
    simp only [hje]
    exact le_trans ih (by omega)
  | case2 lo hi lastGood t h fst sc hje ih =>
    rw [binSearch, dif_pos h]
    simp only [hje]
    exact le_trans ih (by omega)
  | case3 lo hi lastGood t h =>
    rw [binSearch, dif_neg h]
    omega

theorem walkDown_tick_bound (http : HttpOracle) (timeOk past60 : TimePred) :
    ∀ jid jobs tried t res,
      walkDown http timeOk past60 jid jobs tried t = .ok res →
      res.2.2 ≤ t + jid.toNat := by
  intro jid jobs tried t
  induction jid, jobs, tried, t using walkDown.induct http timeOk past60 with
  | case1 jid jobs tried t h e hcol =>
    intro res hres
    rw [walkDown, dif_pos h] at hres
    simp only [hcol] at hres
    cases hres
  | case2 jid jobs tried t h jobs1 hcol hbreak =>
    intro res hres
    rw [walkDown, dif_pos h] at hres
    simp only [hcol, hbreak, if_pos] at hres
    cases hres
    simp only []
    omega
  | case3 jid jobs tried t h jobs1 hcol hbreak ih =>
    intro res hres
    rw [walkDown, dif_pos h] at hres
    rw [hcol] at hres
    simp only [if_neg hbreak] at hres
    have := ih res hres
    omega
  | case4 jid jobs tried t h =>
    intro res hres
    rw [walkDown, dif_neg h] at hres
    cases hres
    exact Nat.le_add_right t _

/-- C7: every scanning loop of the ingestion terminates regardless of the
time budget, with an explicit bound on its iteration count (each loop
iteration advances the tick `t` by one, for any clock predicate, so the
final tick bounds the number of iterations): the step-down loop runs at
most `probe` iterations (probe strictly decreases toward 1), the ramp-up
loop at most `n + 1` iterations once `probe * 2^n` reaches the `5_000_000`
cap (probe doubles or the loop breaks), the binary search at most
`hi - lo` iterations (the bracket strictly shrinks until `hi - lo ≤ 1`),
and the downward walk at most `job_id` iterations (`job_id` strictly
decreases and the loop stops below 1). -/
theorem scan_loops_terminate (http : HttpOracle) (timeOk past60 : TimePred)
    (probe step : Int) (ok0 : Option Bool) (t : Nat) (lo hi lastGood jid : Int)
    (jobs : List FieldDict) (tried : Nat) (n : Nat) :
    ((stepDown http timeOk probe step ok0 t).2.2 ≤ t + probe.toNat) ∧
    (5000000 ≤ probe * 2 ^ n → (rampUp http timeOk probe t).2 ≤ t + n + 1) ∧
    ((binSearch http timeOk lo hi lastGood t).2 ≤ t + (hi - lo).toNat) ∧
    (∀ res, walkDown http timeOk past60 jid jobs tried t = .ok res →
      res.2.2 ≤ t + jid.toNat) :=
  ⟨stepDown_tick_bound http timeOk probe step ok0 t,
   rampUp_tick_bound http timeOk probe t n,
   binSearch_tick_bound http timeOk lo hi lastGood t,
   walkDown_tick_bound http timeOk past60 jid jobs tried t⟩

/-- C7 witness: the bounds at a concrete all-error oracle and an
immediately-expiring clock; the ramp-up cap hypothesis is discharged at
`probe = 100`, `n = 16` (`100 * 2^16 = 6553600 ≥ 5000000`), and the walk
equation at the one-step exit. -/
theorem scan_loops_terminate_witness :
    ((stepDown (fun _ => none) (fun _ => false) 50 5 none 0).2.2 ≤ 0 + (50 : Int).toNat) ∧
    ((rampUp (fun _ => none) (fun _ => false) 100 0).2 ≤ 0 + 16 + 1) ∧
    ((binSearch (fun _ => none) (fun _ => false) 1 9 1 0).2 ≤ 0 + ((9 : Int) - 1).toNat) ∧
    (([] : List FieldDict), 0, 0).2.2 ≤ 0 + (3 : Int).toNat := by
  have h := scan_loops_terminate (fun _ => none) (fun _ => false) (fun _ => false)
    100 5 none 0 1 9 1 3 [] 0 16
  have hs := scan_loops_terminate (fun _ => none) (fun _ => false) (fun _ => false)
    50 5 none 0 1 9 1 3 [] 0 16
  refine ⟨hs.1, h.2.1 (by norm_num), h.2.2.1, ?_⟩
  exact h.2.2.2 ([], 0, 0) (by rw [walkDown]; simp)

/-! ## C1: does `_find_highest_job_id` return an id that answered true? -/

theorem binSearch_lastGood_exists (http : HttpOracle) (timeOk : TimePred) :
    ∀ lo hi lastGood t,
      (job_exists http lastGood).1 = true →
      (job_exists http (binSearch http timeOk lo hi lastGood t).1).1 = true := by
  intro lo hi lastGood t
  induction lo, hi, lastGood, t using binSearch.induct http timeOk with
  | case1 lo hi lastGood t h fst snd hje ih =>
    intro _
    rw [binSearch, dif_pos h]
    simp only [hje]
    exact ih (by rw [hje])
  | case2 lo hi lastGood t h fst sc hje ih =>
    intro hgood
    rw [binSearch, dif_pos h]
    simp only [hje]
    exact ih hgood
  | case3 lo hi lastGood t h =>
    intro hgood
    rw [binSearch, dif_neg h]
    exact hgood

theorem stepDown_ok_true_exists (http : HttpOracle) (timeOk : TimePred) :
    ∀ probe step ok0 t,
      ok0 ≠ some true →
      (stepDown http timeOk probe step ok0 t).2.1 = some true →
      (job_exists http (stepDown http timeOk probe step ok0 t).1).1 = true := by
  intro probe step ok0 t
  induction probe, step, ok0, t using stepDown.induct http timeOk with
  | case1 probe step ok0 t h fst snd hje =>
    intro _ _
    rw [stepDown, dif_pos h]
    simp only [hje]
  | case2 probe step ok0 t h fst sc hje ih =>
    intro _ hok
    rw [stepDown, dif_pos h] at hok ⊢
    simp only [hje] at hok ⊢
    exact ih (by simp) hok
  | case3 probe step ok0 t h =>
    intro hne hok
    rw [stepDown, dif_neg h] at hok
    exact absurd hok hne

theorem rampUp_exists (http : HttpOracle) (timeOk : TimePred) :
    ∀ probe t,
      (job_exists http probe).1 = true →
      (job_exists http (rampUp http timeOk probe t).1).1 = true := by
  intro probe t
  induction probe, t using rampUp.induct http timeOk with
  | case1 probe t h fst snd hje ih =>
    intro _
    rw [rampUp, dif_pos h]
    simp only [hje]
    exact ih (by rw [hje])
  | case2 probe t h fst sc hje =>
    intro hgood
    rw [rampUp, dif_pos h]
    simp only [hje]
    exact hgood
  | case3 probe t h =>
    intro hgood
    rw [rampUp, dif_neg h]
    exact hgood

theorem findFinish_exists (http : HttpOracle) (timeOk : TimePred)
    (h2 : ∀ id : Int, id ≤ 0 → (job_exists http id).1 = false) :
    ∀ probe t i, (job_exists http probe).1 = true →
      findFinish http timeOk probe t = some i →
      (job_exists http i).1 = true := by
  intro probe t i hgood hf
  have hpos : 1 ≤ probe := by
    by_contra hneg
    push_neg at hneg
    have := h2 probe (by omega)
    rw [this] at hgood
    cases hgood
  have hlo : max 1 probe = probe := by omega
  simp only [findFinish, hlo] at hf
  by_cases hz :
      (binSearch http timeOk probe
        (if (job_exists http (probe * 2)).1 = true then probe * 2 * 2 else probe * 2)
        probe t).1 = 0
  · rw [if_pos hz] at hf
    cases hf
  · rw [if_neg hz] at hf
    cases hf
    exact binSearch_lastGood_exists http timeOk _ _ _ _ hgood

theorem findScan_exists (http : HttpOracle) (timeOk : TimePred)
    (h1 : ∀ id : Int, ∃ c b, http id = some (c, b) ∧ (c = 200 ∨ c = 404))
    (h2 : ∀ id : Int, id ≤ 0 → (job_exists http id).1 = false) :
    ∀ P i, findScan http timeOk P = .ok (some i) →
      (job_exists http i).1 = true := by
  intro P i hf
  unfold findScan at hf
  rcases hje : job_exists http P with ⟨ex0, j0, sc0⟩
  rw [hje] at hf
  simp only [] at hf
  by_cases hcond : ex0 = false ∧ sc0 = some 404
  · rw [if_pos hcond] at hf
    rcases hsd : stepDown http timeOk P (max 1 (P / 10)) none 0 with ⟨probe1, okv, t1⟩
    rw [hsd] at hf
    cases okv with
    | none => simp at hf
    | some b =>
      cases b with
      | false => simp at hf
      | true =>
        simp only [] at hf
        have hgood1 : (job_exists http probe1).1 = true := by
          have hst := stepDown_ok_true_exists http timeOk P (max 1 (P / 10)) none 0
            (by simp) (by rw [hsd])
          rwa [hsd] at hst
        have hff : findFinish http timeOk probe1 t1 = some i := by
          cases hff0 : findFinish http timeOk probe1 t1 with
          | none => rw [hff0] at hf; simp at hf
          | some w => rw [hff0] at hf; cases hf; rfl
        exact findFinish_exists http timeOk h2 probe1 t1 i hgood1 hff
  · rw [if_neg hcond] at hf
    have hgood0 : (job_exists http P).1 = true := by
      rcases h1 P with ⟨c, b, hhttp, hc⟩
      rcases hc with rfl | rfl
      · simp [job_exists, hhttp]
      · exfalso
        apply hcond
        have h404 : job_exists http P = (false, none, some 404) := by
          simp [job_exists, hhttp]
        rw [h404] at hje
        cases hje
        exact ⟨rfl, rfl⟩
    have hgood1 := rampUp_exists http timeOk P 0 hgood0
    rcases hru : rampUp http timeOk P 0 with ⟨p1, t1⟩
    rw [hru] at hf hgood1
    simp only [] at hf
    have hff : findFinish http timeOk p1 t1 = some i := by
      cases hff0 : findFinish http timeOk p1 t1 with
      | none => rw [hff0] at hf; simp at hf
      | some w => rw [hff0] at hf; cases hf; rfl
    exact findFinish_exists http timeOk h2 p1 t1 i hgood1 hff

/-- C1 (amended): when every probe failure is an HTTP 404 (no network
errors or other statuses) and ids below 1 never exist, a job id returned
by `_find_highest_job_id` did answer true to the existence probe.  Without
the 404-only assumption the claim fails — see the counterexample, where a
network-failing oracle makes the function return an id that was never
confirmed. -/
theorem find_highest_returns_existing (http : HttpOracle) (timeOk : TimePred)
    (last_seen : Option Int)
    (h1 : ∀ id : Int, ∃ c b, http id = some (c, b) ∧ (c = 200 ∨ c = 404))
    (h2 : ∀ id : Int, id ≤ 0 → (job_exists http id).1 = false) :
    ∀ i, find_highest_job_id http timeOk last_seen = .ok (some i) →
      (job_exists http i).1 = true := by
  intro i hf
  unfold find_highest_job_id at hf
  exact findScan_exists http timeOk h1 h2 _ i hf

/-- C1 counterexample: with an oracle that fails every probe with a
network error (`requests.RequestException`, so `_job_exists` answers
`(False, None, None)` everywhere and no id ever answers true) and a
wall-clock budget that is already spent, `_find_highest_job_id` still
returns job id 1000 — the initial probe, whose existence was never
confirmed but only assumed. -/
theorem find_highest_claim_counterexample :
    find_highest_job_id (fun _ => none) (fun _ => false) none = .ok (some 1000) ∧
    (job_exists (fun _ => none) 1000).1 = false := by
  constructor
  · simp +decide [find_highest_job_id, findScan, findFinish, rampUp, binSearch,
      job_exists]
  · rfl

/-- The C1 witness oracle: ids 1 through 1000 exist, all else is a 404. -/
def witFindHttp : HttpOracle := fun id =>
  if 1 ≤ id ∧ id ≤ 1000 then some (200, .obj []) else some (404, .null)

/-- C1 witness: under the amendment's hypotheses (404-only failures, no
ids below 1), the id 1000 returned for this oracle did answer true. -/
theorem find_highest_returns_existing_witness :
    (job_exists witFindHttp 1000).1 = true :=
  find_highest_returns_existing witFindHttp (fun _ => false) none
    (fun id => by
      by_cases h : 1 ≤ id ∧ id ≤ 1000
      · exact ⟨200, .obj [], by simp [witFindHttp, h], Or.inl rfl⟩
      · exact ⟨404, .null, by simp [witFindHttp, h], Or.inr rfl⟩)
    (fun id hid => by
      simp [job_exists, witFindHttp, show ¬(1 ≤ id ∧ id ≤ 1000) from by omega])
    1000
    (by simp +decide [find_highest_job_id, findScan, findFinish, rampUp, binSearch,
      job_exists, witFindHttp])

/-! ## C2: snapshot and job-row insertion discipline of `ingest_live` -/

theorem db_set_meta_preserves (db : DB) (k v : String) :
    (db_set_meta db k v).jobs = db.jobs ∧
    (db_set_meta db k v).snapshots = db.snapshots := by
  unfold db_set_meta
  split_ifs <;> exact ⟨rfl, rfl⟩

theorem ingestFinish_spec (sid : Int) (db1 : DB) (jobsL : List FieldDict)
    (tried : Nat) :
    (ingestFinish sid db1 jobsL tried).2.jobs = db1.jobs ++ jobsL.map (toRow sid) ∧
    (ingestFinish sid db1 jobsL tried).2.snapshots = db1.snapshots ∧
    (ingestFinish sid db1 jobsL tried).1 =
      .ok { ok := true, jobs := jobsL.length, tried := tried, snapshot_id := sid } := by
  unfold ingestFinish
  simp only []
  by_cases he : jobsL.isEmpty
  · simp only [he, if_true]
    rcases db_set_meta_preserves
      { db1 with jobs := db1.jobs ++ jobsL.map (toRow sid) }
      "last_snapshot_id" (toString sid) with ⟨h1, h2⟩
    exact ⟨h1, h2, trivial⟩
  · simp only [he, Bool.false_eq_true, if_false]
    rcases db_set_meta_preserves
      { db1 with jobs := db1.jobs ++ jobsL.map (toRow sid) }
      "last_snapshot_id" (toString sid) with ⟨h1, h2⟩
    cases hmax : maxIntList (jobsL.filterMap
        (fun r => match lookupF r "job_id" with | some (.int n) => some n | _ => none)) with
    | none => exact ⟨h1, h2, trivial⟩
    | some m =>
      rcases db_set_meta_preserves
        (db_set_meta { db1 with jobs := db1.jobs ++ jobsL.map (toRow sid) }
          "last_snapshot_id" (toString sid))
        "last_seen_job_id" (toString m) with ⟨h3, h4⟩
      exact ⟨h3.trans h1, h4.trans h2, trivial⟩

/-- C2 (amended): every `ingest_live` call that gets past authentication
(base URL present and `_get_token` succeeding) inserts exactly one new
snapshot row `(nextSnapshotId, now)`; every job row it adds carries that
snapshot id; and when the run completes normally the added rows are
exactly the active-project dicts collected by the downward walk, in
order, with the response reporting their count and the snapshot id.
(The claim's unconditional "every call" fails when authentication raises
— see the counterexample.) -/
theorem ingest_live_row_insertion (bu tk : String) (http : HttpOracle)
    (timeOk1 timeOkW past60 : TimePred) (now : String) (db : DB) :
    ((ingest_live (some bu) (some tk) http timeOk1 timeOkW past60 now db).2.snapshots =
      db.snapshots ++ [(db.nextSnapshotId, now)]) ∧
    (((ingest_live (some bu) (some tk) http timeOk1 timeOkW past60 now db).2.jobs.drop
        db.jobs.length).all (fun r => r.snapshot_id = db.nextSnapshotId) = true) ∧
    (∀ res, (ingest_live (some bu) (some tk) http timeOk1 timeOkW past60 now db).1 =
        .ok res →
      ∃ hi L tried tf,
        walkDown http timeOkW past60 hi [] 0 0 = .ok (L, tried, tf) ∧
        (ingest_live (some bu) (some tk) http timeOk1 timeOkW past60 now db).2.jobs =
          db.jobs ++ L.map (toRow db.nextSnapshotId) ∧
        res.jobs = L.length ∧ res.snapshot_id = db.nextSnapshotId) := by
  unfold ingest_live
  simp only [db_insert_snapshot]
  cases hfind : find_highest_job_id http timeOk1
      (db_last_seen_job_id { db with
        nextSnapshotId := db.nextSnapshotId + 1
        snapshots := db.snapshots ++ [(db.nextSnapshotId, now)] }) with
  | error e =>
    refine ⟨rfl, ?_, ?_⟩
    · simp [List.drop_length]
    · intro res hres
      cases hres
  | ok hiOpt =>
    simp only []
    cases hwalk : walkDown http timeOkW past60
        (pyOrI hiOpt (pyOrI (db_last_seen_job_id { db with
          nextSnapshotId := db.nextSnapshotId + 1
          snapshots := db.snapshots ++ [(db.nextSnapshotId, now)] }) 1200)) [] 0 0 with
    | error e =>
      refine ⟨rfl, ?_, ?_⟩
      · simp [List.drop_length]
      · intro res hres
        cases hres
    | ok out =>
      rcases out with ⟨L, tried, tf⟩
      simp only []
      rcases ingestFinish_spec db.nextSnapshotId
        { db with
          nextSnapshotId := db.nextSnapshotId + 1
          snapshots := db.snapshots ++ [(db.nextSnapshotId, now)] } L tried
        with ⟨hjobs, hsnaps, hres⟩
      refine ⟨hsnaps, ?_, ?_⟩
      · rw [hjobs]
        simp only [List.drop_left]
        rw [List.all_eq_true]
        intro r hr
        rcases List.mem_map.mp hr with ⟨f, -, rfl⟩
        simp [toRow]
      · intro res hres2
        rw [hres] at hres2
        cases hres2
        exact ⟨_, L, tried, tf, hwalk, hjobs, rfl, rfl⟩

/-- C2 counterexample: a call in which `_get_token()` raises (modelled as
`token = none`) inserts no snapshot row at all, so "every call to
ingest_live inserts exactly one new row into the snapshot table" is false
as stated. -/
theorem ingest_live_claim_counterexample :
    (ingest_live (some "b") none (fun _ => none) (fun _ => true) (fun _ => true)
      (fun _ => true) "2026-01-01T00:00:00+00:00" ⟨1, [], [], []⟩).2.snapshots = [] :=
  rfl

/-- C2 witness: a run past authentication whose budget expires at once —
the implication's hypothesis is discharged by evaluating the run. -/
theorem ingest_live_row_insertion_witness :
    ∃ hi L tried tf,
      walkDown (fun _ => some (200, JVal.obj [("a", JVal.null)])) (fun _ => false)
        (fun _ => false) hi [] 0 0 = .ok (L, tried, tf) ∧
      (ingest_live (some "b") (some "t")
        (fun _ => some (200, JVal.obj [("a", JVal.null)]))
        (fun _ => false) (fun _ => false) (fun _ => false) "now"
        ⟨1, [], [], []⟩).2.jobs =
        (⟨1, [], [], []⟩ : DB).jobs ++
          L.map (toRow (⟨1, [], [], []⟩ : DB).nextSnapshotId) ∧
      (⟨true, 0, 0, 1⟩ : IngestResult).jobs = L.length ∧
      (⟨true, 0, 0, 1⟩ : IngestResult).snapshot_id = (⟨1, [], [], []⟩ : DB).nextSnapshotId :=
  (ingest_live_row_insertion "b" "t"
    (fun _ => some (200, JVal.obj [("a", JVal.null)]))
    (fun _ => false) (fun _ => false) (fun _ => false) "now" ⟨1, [], [], []⟩).2.2
    ⟨true, 0, 0, 1⟩
    (by
      simp +decide [ingest_live, db_insert_snapshot, db_last_seen_job_id, maxIntList,
        find_highest_job_id, findScan, findFinish, rampUp, binSearch, walkDown,
        job_exists, pyOrI, ingestFinish])

/-! ## C5: every stored job row is an active project -/

/-- The claim-side active-project conditions on a stored `job` row: the
type does not contain `"service"`, the stage contains `"pending"` or
`"progress"`, and contains neither `"archiv"` nor `"complete"`
(containment on the lowercased text, as the code checks). -/
def activeRow (r : JobRow) : Bool :=
  match r.stage, r.jtype with
  | .str s, .str t =>
    !(strIn "service" (pyLower t)) &&
    (strIn "pending" (pyLower s) || strIn "progress" (pyLower s)) &&
    !(strIn "archiv" (pyLower s)) && !(strIn "complete" (pyLower s))
  | _, _ => false

theorem pyOrS_empty (s : String) : pyOrS s "" = s := by
  unfold pyOrS
  split_ifs with h
  · exact h.symm
  · rfl

theorem lookupF_extract_stage (o : JObj) :
    lookupF (extract_job_fields o) "stage" = some (.str (infer_stage o)) := by
  simp [extract_job_fields, lookupF]

theorem lookupF_extract_type (o : JObj) :
    lookupF (extract_job_fields o) "type" = some (.str (infer_type o)) := by
  simp [extract_job_fields, lookupF]

theorem active_toRow (sid : Int) (o : JObj)
    (h : is_active_project (extract_job_fields o) = true) :
    activeRow (toRow sid (extract_job_fields o)) = true := by
  have hs : (toRow sid (extract_job_fields o)).stage = .str (infer_stage o) := by
    simp [toRow, lookupF_extract_stage]
  have ht : (toRow sid (extract_job_fields o)).jtype = .str (infer_type o) := by
    simp [toRow, lookupF_extract_type]
  unfold is_active_project at h
  rw [show fgetStr (extract_job_fields o) "stage" = infer_stage o from by
      simp [fgetStr, lookupF_extract_stage],
    show fgetStr (extract_job_fields o) "type" = infer_type o from by
      simp [fgetStr, lookupF_extract_type],
    pyOrS_empty, pyOrS_empty] at h
  unfold activeRow
  rw [hs, ht]
  simp only [] at h ⊢
  split_ifs at h with h1 h2 h3
  simp only [Bool.not_eq_true] at h1 h2
  simp only [Bool.or_eq_false_iff] at h2
  rw [h1, h2.1, h2.2, h3]
  rfl

theorem walkCollect_active (pr : Bool × Option JVal × Option Nat)
    (jobs jobs1 : List FieldDict) :
    walkCollect pr jobs = .ok jobs1 →
    (∀ f ∈ jobs, ∃ o, f = extract_job_fields o ∧ is_active_project f = true) →
    ∀ f ∈ jobs1, ∃ o, f = extract_job_fields o ∧ is_active_project f = true := by
  rcases pr with ⟨ex, jOpt, sc⟩
  unfold walkCollect
  cases jOpt with
  | none =>
    intro h1 hinv
    cases h1
    exact hinv
  | some jv =>
    by_cases hex : ex = true ∧ pyTruthy jv = true
    · simp only [hex, and_self, if_true]
      cases jv with
      | obj o =>
        intro h1 hinv
        cases h1
        by_cases hact : is_active_project (extract_job_fields o) = true
        · rw [if_pos hact]
          intro f hf
          rcases List.mem_append.mp hf with hold | hnew
          · exact hinv f hold
          · rcases List.mem_singleton.mp hnew with rfl
            exact ⟨o, rfl, hact⟩
        · rw [if_neg hact]
          exact hinv
      | null => intro h1; cases h1
      | bool b => intro h1; cases h1
      | num q => intro h1; cases h1
      | str s => intro h1; cases h1
      | arr xs => intro h1; cases h1
    · intro h1 hinv
      simp only [] at h1
      rw [if_neg hex] at h1
      cases h1
      exact hinv

theorem walkDown_active (http : HttpOracle) (timeOk past60 : TimePred) :
    ∀ jid jobs tried t L tr tf,
      walkDown http timeOk past60 jid jobs tried t = .ok (L, tr, tf) →
      (∀ f ∈ jobs, ∃ o, f = extract_job_fields o ∧ is_active_project f = true) →
      ∀ f ∈ L, ∃ o, f = extract_job_fields o ∧ is_active_project f = true := by
  intro jid jobs tried t
  induction jid, jobs, tried, t using walkDown.induct http timeOk past60 with
  | case1 jid jobs tried t h e hcol =>
    intro L tr tf hres hinv
    rw [walkDown, dif_pos h] at hres
    simp only [hcol] at hres
    cases hres
  | case2 jid jobs tried t h jobs1 hcol hbreak =>
    intro L tr tf hres hinv
    rw [walkDown, dif_pos h] at hres
    simp only [hcol, hbreak, if_pos] at hres
    cases hres
    exact walkCollect_active _ jobs jobs1 hcol hinv
  | case3 jid jobs tried t h jobs1 hcol hbreak ih =>
    intro L tr tf hres hinv
    rw [walkDown, dif_pos h] at hres
    rw [hcol] at hres
    simp only [if_neg hbreak] at hres
    exact ih L tr tf hres (walkCollect_active _ jobs jobs1 hcol hinv)
  | case4 jid jobs tried t h =>
    intro L tr tf hres hinv
    rw [walkDown, dif_neg h] at hres
    cases hres
    exact hinv

/-- C5: every job row stored by an `ingest_live` run (with any base URL,
token, HTTP behaviour and clocks) satisfies the active-project conditions:
its type does not contain "service", its stage contains "pending" or
"progress" and contains neither "archiv" nor "complete" (case-insensitive
containment on the stored text); jobs with an unrecognised stage are never
stored. -/
theorem ingest_live_rows_active (bu tk : String) (http : HttpOracle)
    (timeOk1 timeOkW past60 : TimePred) (now : String) (db : DB) :
    (((ingest_live (some bu) (some tk) http timeOk1 timeOkW past60 now db).2.jobs.drop
        db.jobs.length).all activeRow) = true := by
  unfold ingest_live
  simp only [db_insert_snapshot]
  cases hfind : find_highest_job_id http timeOk1
      (db_last_seen_job_id { db with
        nextSnapshotId := db.nextSnapshotId + 1
        snapshots := db.snapshots ++ [(db.nextSnapshotId, now)] }) with
  | error e => simp [List.drop_length]
  | ok hiOpt =>
    simp only []
    cases hwalk : walkDown http timeOkW past60
        (pyOrI hiOpt (pyOrI (db_last_seen_job_id { db with
          nextSnapshotId := db.nextSnapshotId + 1
          snapshots := db.snapshots ++ [(db.nextSnapshotId, now)] }) 1200)) [] 0 0 with
    | error e => simp [List.drop_length]
    | ok out =>
      rcases out with ⟨L, tried, tf⟩
      simp only []
      rcases ingestFinish_spec db.nextSnapshotId
        { db with
          nextSnapshotId := db.nextSnapshotId + 1
          snapshots := db.snapshots ++ [(db.nextSnapshotId, now)] } L tried
        with ⟨hjobs, -, -⟩
      rw [hjobs]
      simp only [List.drop_left]
      rw [List.all_eq_true]
      intro r hr
      rcases List.mem_map.mp hr with ⟨f, hfL, rfl⟩
      rcases walkDown_active http timeOkW past60 _ _ _ _ L tried tf hwalk
        (by intro f hf; cases hf) f hfL with ⟨o, rfl, hact⟩
      exact active_toRow db.nextSnapshotId o hact

/-- C5 witness: the theorem applied at a concrete run (budget expires
immediately, so the stored-row set is empty and the check holds). -/
theorem ingest_live_rows_active_witness :
    (((ingest_live (some "b") (some "t") (fun _ => some (404, JVal.null))
        (fun _ => false) (fun _ => false) (fun _ => false) "now"
        ⟨1, [], [], []⟩).2.jobs.drop ([] : List JobRow).length).all activeRow) = true :=
  ingest_live_rows_active "b" "t" (fun _ => some (404, JVal.null))
    (fun _ => false) (fun _ => false) (fun _ => false) "now" ⟨1, [], [], []⟩

end RhomeEod
